import Mathlib

/-!
# Credential resolution and caching of `aws-exec-cmd`

A shallow embedding of `internal/cage/aws/v1/sts/sts.go` (`GetEC2RoleCreds`,
`GetAssumeRoleCreds`, `ResolveRoleChain`, `SvcToBasicCreds`), of
`internal/cage/aws/v1/resource/resource.go` (`IsARN`), of
`internal/cage/aws/credentials/cache/cache.go` (`Key`, `Value`, `Store`), of
`Mixin.Credentials` in `internal/cage/cli/handler/mixin/aws/auth/auth.go` and of
`Mixin.Get` of the role provider in `internal/cage/cli/handler/mixin/aws/auth`.

The AWS SDK, the environment and the random source are external: they are
collected in a `World` of oracles.  Every oracle that can be consulted more than
once receives the history of external calls made so far, so that its answer may
change from call to call.  `ResolveRoleChain` is state passing: next to the four
Go results it returns the calls it made (in order), the resolution log and the
final contents of the input struct it mutates through its pointer.

The cache works on a `FileSystem` that is passed along, with the hash, the path
join and the JSON codec as parameters (`Sys`); `Mixin.Credentials` gets what it
finds around one call (home directory, prompt, environment, clock) as an `Env`
and returns an `Outcome` that also tells which of cache read, provider and cache
write were used.
-/

namespace AwsExecCmd

/-! ## Go errors (`github.com/pkg/errors`) -/

/-- Go `error` values as built with `github.com/pkg/errors`; `Option Error` is a
Go `error` that may be `nil`. -/
inductive Error where
  | new (msg : String)
  | withStack (cause : Error)
  | wrap (cause : Error) (msg : String)
deriving DecidableEq, Repr

/-- `errors.WithStack(err)`: nil stays nil. -/
def errorsWithStack : Option Error → Option Error
  | none => none
  | some e => some (Error.withStack e)

/-- `errors.Wrap(err, msg)` and `errors.Wrapf(err, format, ...)` with the
formatted message: nil stays nil. -/
def errorsWrap : Option Error → String → Option Error
  | none, _ => none
  | some e, msg => some (Error.wrap e msg)

/-! ## Data model -/

/-- `credentials.Value` of the SDK. -/
structure Value where
  AccessKeyID : String := ""
  SecretAccessKey : String := ""
  SessionToken : String := ""
  ProviderName : String := ""
deriving DecidableEq, Repr

/-- `sts.Credentials` of the SDK, pointers dereferenced (the expiration is not
read by this program). -/
structure StsCredentials where
  AccessKeyId : String
  SecretAccessKey : String
  SessionToken : String
deriving DecidableEq, Repr

/-- What `aws.Config.Credentials` is set to by this program: either
`credentials.NewStaticCredentials(id, secret, token)` or the SDK's
`credentials.AnonymousCredentials`. -/
inductive Credentials where
  | static (id secret token : String)
  | anonymous
deriving DecidableEq, Repr

/-- `aws.Config`, the two fields this program sets. -/
structure Config where
  Credentials : Credentials
  Region : String
deriving DecidableEq, Repr

/-- `sts.AssumeRoleInput`, the fields this program sets; `none` is a nil pointer. -/
structure AssumeRoleInput where
  RoleArn : String
  RoleSessionName : String
  SerialNumber : Option String := none
  TokenCode : Option String := none
  DurationSeconds : Option Int := none
deriving DecidableEq, Repr

/-- `ResolveRoleChainInput`. -/
structure ResolveRoleChainInput where
  AccessKey : String := ""
  SecretAccessKey : String := ""
  SessionToken : String := ""
  SessionName : String := ""
  Region : String := ""
  Chain : List String := []
  SerialNumber : String := ""
  TokenCode : String := ""
  DurationSeconds : Int := 0
deriving DecidableEq, Repr

/-- `InstanceRoleChainAlias`. -/
def InstanceRoleChainAlias : String := "instance"

/-- `EnvTempRoleChainAlias`. -/
def EnvTempRoleChainAlias : String := "env-triple"

/-- `strings.Join(elems, sep)`. -/
def stringsJoin (elems : List String) (sep : String) : String :=
  sep.intercalate elems

/-- `ResolveRoleChainInput.String`. -/
def ResolveRoleChainInput.String (i : ResolveRoleChainInput) : String :=
  "session [" ++ i.SessionName ++ "] region [" ++ i.Region ++
  "] mfa serial [" ++ toString i.SerialNumber.utf8ByteSize ++
  " chars] mfa code [" ++ toString i.TokenCode.utf8ByteSize ++
  " chars] ttl [" ++ toString i.DurationSeconds ++
  " sec] chain [" ++ stringsJoin i.Chain "," ++ "]"

/-- `ResolveRoleChainLog`. -/
abbrev ResolveRoleChainLog := List String

/-- `ResolveRoleChainLog.String`. -/
def ResolveRoleChainLog.String (r : ResolveRoleChainLog) : String :=
  if r.length > 0 then stringsJoin r "," else "no roles resolved"

/-- `IsARN` of `resource.go`: the regular expression `^arn:aws:` matches exactly
the strings that begin with `arn:aws:`. -/
def IsARN (str : String) : Bool :=
  "arn:aws:".data.isPrefixOf str.data

/-! ## External calls -/

/-- One invocation of `GetAssumeRoleCreds` (an elevation call): its arguments as
far as it reads them, the request it handed to `sts.AssumeRole` when it got that
far, and what it returned. -/
structure Elevation where
  arn : String
  config : Config
  serialNumber : String
  tokenCode : String
  request : Option AssumeRoleInput
  creds : Value
  err : Option Error
deriving DecidableEq, Repr

/-- The calls `ResolveRoleChain` makes to its collaborators, with their results. -/
inductive Call where
  | envCreds (creds : Value) (err : Option Error)
  | ec2RoleCreds (creds : Value) (err : Option Error)
  | assumeRole (e : Elevation)
deriving DecidableEq, Repr

/-- The collaborators outside this repository's sources.  `hist` is the list of
calls `ResolveRoleChain` has completed before the one being answered. -/
structure World where
  /-- `credentials.NewEnvCredentials().Get()`. -/
  envCredentialsGet : Value × Option Error
  /-- `session.NewSession()` in `NewBasicEC2RoleProvider`. -/
  ec2NewSession : Option Error
  /-- `credentials.NewCredentials(p).Get()` on the EC2 role provider. -/
  ec2CredentialsGet : Value × Option Error
  /-- `session.NewSession(config)` in `GetAssumeRoleCreds`. -/
  newSession : (hist : List Call) → Config → Option Error
  /-- `cage_crypto.RandHexString(n)`. -/
  RandHexString : (hist : List Call) → Nat → String × Option Error
  /-- `svc.AssumeRole(&params)` on the STS client of the session. -/
  AssumeRole : (hist : List Call) → Config → AssumeRoleInput → StsCredentials × Option Error

/-- `SvcToBasicCreds`. -/
def SvcToBasicCreds (c : StsCredentials) : Value :=
  { AccessKeyID := c.AccessKeyId
    SecretAccessKey := c.SecretAccessKey
    SessionToken := c.SessionToken }

/-- `GetEC2RoleCreds` (with `NewBasicEC2RoleProvider` inlined). -/
def GetEC2RoleCreds (w : World) : Value × Option Error :=
  match w.ec2NewSession with
  | some e => ({}, errorsWithStack (errorsWithStack (some e)))
  | none => w.ec2CredentialsGet

/-- The request `GetAssumeRoleCreds` builds once the session name is known. -/
def assumeRoleParams (arn : String) (input : ResolveRoleChainInput)
    (roleSessionName : String) : AssumeRoleInput :=
  { RoleArn := arn
    RoleSessionName := roleSessionName
    SerialNumber := if input.SerialNumber ≠ "" then some input.SerialNumber else none
    TokenCode := if input.TokenCode ≠ "" then some input.TokenCode else none
    DurationSeconds := if input.DurationSeconds > 0 then some input.DurationSeconds else none }

/-- The tail of `GetAssumeRoleCreds`: the `AssumeRole` call and the conversion of
its answer. -/
def callAssumeRole (w : World) (hist : List Call) (arn : String)
    (input : ResolveRoleChainInput) (config : Config) (roleSessionName : String) :
    Elevation :=
  let params := assumeRoleParams arn input roleSessionName
  match w.AssumeRole hist config params with
  | (_, some e) =>
    { arn := arn, config := config, serialNumber := input.SerialNumber,
      tokenCode := input.TokenCode, request := some params, creds := {},
      err := errorsWithStack (some e) }
  | (resp, none) =>
    { arn := arn, config := config, serialNumber := input.SerialNumber,
      tokenCode := input.TokenCode, request := some params,
      creds := SvcToBasicCreds resp, err := none }

/-- `GetAssumeRoleCreds`.  When the random session name cannot be generated the
source wraps the named result `err`, which is nil at that point, so the error
it returns is nil. -/
def GetAssumeRoleCreds (w : World) (hist : List Call) (arn : String)
    (input : ResolveRoleChainInput) (config : Config) : Elevation :=
  match w.newSession hist config with
  | some e =>
    { arn := arn, config := config, serialNumber := input.SerialNumber,
      tokenCode := input.TokenCode, request := none, creds := {},
      err := errorsWithStack (some e) }
  | none =>
    let err : Option Error := none
    if input.SessionName = "" then
      match w.RandHexString hist 2 with
      | (_, some _) =>
        { arn := arn, config := config, serialNumber := input.SerialNumber,
          tokenCode := input.TokenCode, request := none, creds := {},
          err := errorsWrap err "failed to generate random AssumeRole session name" }
      | (randStr, none) =>
        callAssumeRole w hist arn input config
          ("cage.aws.v1.sts.GetAssumeRoleCreds." ++ randStr)
    else
      callAssumeRole w hist arn input config input.SessionName

/-! ## `ResolveRoleChain` -/

/-- The local variables of `ResolveRoleChain` that change during the traversal
(`input` is the struct behind the pointer argument), and the calls made so far. -/
structure State where
  input : ResolveRoleChainInput
  prior : Value := {}
  log : ResolveRoleChainLog := []
  calls : List Call := []
deriving DecidableEq, Repr

/-- The four Go results of `ResolveRoleChain`, followed by what an observer of
the run sees besides them: the input struct as it was left, the resolution log
and the calls made, in order. -/
structure Result where
  accessKey : String
  secretAccessKey : String
  sessionToken : String
  err : Option Error
  input : ResolveRoleChainInput
  log : ResolveRoleChainLog
  calls : List Call
deriving DecidableEq, Repr

/-- The closure `resolveErr` of `ResolveRoleChain`, which reads `input` and `log`
as they are when it is called. -/
def resolveErr (input : ResolveRoleChainInput) (log : ResolveRoleChainLog)
    (err : Option Error) : Option Error :=
  errorsWrap err
    ("failed to resolve role chain (" ++ input.String ++ ") log [" ++
      ResolveRoleChainLog.String log ++ "]")

/-- A `return "", "", "", err`. -/
def State.fail (s : State) (err : Option Error) : Result :=
  { accessKey := "", secretAccessKey := "", sessionToken := "", err := err,
    input := s.input, log := s.log, calls := s.calls }

/-- The final `return accessKey, secretAccessKey, sessionToken, nil`. -/
def State.done (s : State) : Result :=
  { accessKey := s.prior.AccessKeyID, secretAccessKey := s.prior.SecretAccessKey,
    sessionToken := s.prior.SessionToken, err := none,
    input := s.input, log := s.log, calls := s.calls }

/-- The credentials the loop of `ResolveRoleChain` puts into `assumeConfig`:
static ones made of `prior` if `priorCredsExist`, anonymous ones otherwise. -/
def priorCredentials (prior : Value) : Credentials :=
  if prior.AccessKeyID ≠ "" then
    Credentials.static prior.AccessKeyID prior.SecretAccessKey prior.SessionToken
  else
    Credentials.anonymous

/-- The `aws.Config` the loop of `ResolveRoleChain` builds for a link. -/
def assumeConfig (input : ResolveRoleChainInput) (prior : Value) : Config :=
  { Region := input.Region
    Credentials := priorCredentials prior }

/-- The `for _, link := range chain` loop of `ResolveRoleChain` and the return
that follows it. -/
def ResolveRoleChain.loop (w : World) : List String → State → Result
  | [], s => s.done
  | link :: chain, s =>
    if link = "" then
      ResolveRoleChain.loop w chain s
    else if ¬ IsARN link then
      s.fail (resolveErr s.input s.log (some (Error.new
        ("non-ARN role is only allowed in first chain role, chain [" ++
          stringsJoin s.input.Chain "," ++ "]"))))
    else
      let priorCredsExist : Bool := s.prior.AccessKeyID ≠ ""
      let log := s.log ++ ["about to assume role from link [" ++ link ++
        "] with prior creds [" ++ toString priorCredsExist ++ "]"]
      let e := GetAssumeRoleCreds w s.calls link s.input (assumeConfig s.input s.prior)
      let calls := s.calls ++ [Call.assumeRole e]
      match e.err with
      | some err =>
        State.fail { input := s.input, prior := e.creds, log := log, calls := calls }
          (resolveErr s.input log (some err))
      | none =>
        ResolveRoleChain.loop w chain
          { input := { s.input with SerialNumber := "", TokenCode := "" }
            prior := e.creds
            log := log ++ ["assumed role from link: " ++ link]
            calls := calls }

/-- `ResolveRoleChain`. -/
def ResolveRoleChain (w : World) (input : ResolveRoleChainInput) : Result :=
  let s : State := { input := input }
  match input.Chain with
  | [] => s.fail (some (Error.new "no links in role chain"))
  | first :: rest =>
    if input.AccessKey ≠ "" ∧ input.SecretAccessKey ≠ "" then
      let awsConfig : Config :=
        { Credentials :=
            Credentials.static input.AccessKey input.SecretAccessKey input.SessionToken
          Region := input.Region }
      let e := GetAssumeRoleCreds w [] first input awsConfig
      let s1 : State := { s with prior := e.creds, calls := [Call.assumeRole e] }
      match e.err with
      | some err =>
        s1.fail (errorsWrap (some err)
          ("failed to assume role [" ++ first ++ "] using intiial static creds"))
      | none => ResolveRoleChain.loop w (first :: rest) s1
    else if ¬ IsARN first then
      if first = EnvTempRoleChainAlias then
        match w.envCredentialsGet with
        | (creds, some err) =>
          State.fail { s with prior := creds, calls := [Call.envCreds creds (some err)] }
            (resolveErr input [] (some err))
        | (creds, none) =>
          ResolveRoleChain.loop w rest
            { s with prior := creds, log := ["seeded chain with env-triple creds"],
                     calls := [Call.envCreds creds none] }
      else if first = InstanceRoleChainAlias then
        match GetEC2RoleCreds w with
        | (creds, some err) =>
          State.fail { s with prior := creds, calls := [Call.ec2RoleCreds creds (some err)] }
            (resolveErr input [] (some err))
        | (creds, none) =>
          ResolveRoleChain.loop w rest
            { s with prior := creds, log := ["seeded chain with instance role creds"],
                     calls := [Call.ec2RoleCreds creds none] }
      else
        s.fail (some (Error.new
          ("role chain first-link alias [" ++ first ++ "] is not recognized")))
    else
      ResolveRoleChain.loop w (first :: rest) s

/-! ## Observations on a run -/

/-- The elevation calls among a list of calls, in order. -/
def elevations : List Call → List Elevation
  | [] => []
  | Call.assumeRole e :: cs => e :: elevations cs
  | _ :: cs => elevations cs

/-- The seed-acquisition calls among a list of calls, in order. -/
def seeds : List Call → List Call
  | [] => []
  | Call.assumeRole _ :: cs => seeds cs
  | c :: cs => c :: seeds cs

/-- A world in which every collaborator succeeds: the seed sources return the
given values, the random source returns `rand`, and the `n`-th external call of a
resolution, when it is an `AssumeRole`, answers with `answer n` applied to the
target role. -/
def World.ok (env ec2 : Value) (rand : String)
    (answer : Nat → String → StsCredentials) : World :=
  { envCredentialsGet := (env, none)
    ec2NewSession := none
    ec2CredentialsGet := (ec2, none)
    newSession := fun _ _ => none
    RandHexString := fun _ _ => (rand, none)
    AssumeRole := fun hist _ p => (answer hist.length p.RoleArn, none) }


/-- The request validation of the SDK's STS client: `AssumeRole` runs
`AssumeRoleInput.Validate` before anything is sent, and that refuses a `RoleArn`
shorter than 20 bytes (`request.NewErrParamMinLen("RoleArn", 20)`), so such a
call returns an error. -/
def World.ValidatesRoleArn (w : World) : Prop :=
  ∀ hist config params, params.RoleArn.utf8ByteSize < 20 →
    (w.AssumeRole hist config params).2 ≠ none

/-- The error of a call, nil when it succeeded. -/
def Call.err : Call → Option Error
  | Call.envCreds _ err => err
  | Call.ec2RoleCreds _ err => err
  | Call.assumeRole e => e.err

/-- The input carries a non-empty static access key and secret (the test at the
head of `ResolveRoleChain`). -/
def ResolveRoleChainInput.hasStaticCreds (i : ResolveRoleChainInput) : Prop :=
  i.AccessKey ≠ "" ∧ i.SecretAccessKey ≠ ""

instance (i : ResolveRoleChainInput) : Decidable i.hasStaticCreds := by
  unfold ResolveRoleChainInput.hasStaticCreds; infer_instance

/-! ## Sample data -/

/-- A role identifier. -/
def roleA : String := "arn:aws:iam::123456789012:role/a"

/-- The role identifier of the backup scenario. -/
def roleBackup : String := "arn:aws:iam::123456789012:role/backup"

/-- Seed credentials of the environment in the sample world. -/
def envSeed : Value :=
  { AccessKeyID := "ENVKEY", SecretAccessKey := "ENVSECRET", SessionToken := "ENVTOKEN",
    ProviderName := "EnvProvider" }

/-- Seed credentials of the instance metadata service in the sample world. -/
def ec2Seed : Value :=
  { AccessKeyID := "EC2KEY", SecretAccessKey := "EC2SECRET", SessionToken := "EC2TOKEN",
    ProviderName := "EC2RoleProvider" }

/-- The answer of the sample STS: the secret names the role assumed and the token
is `T0`, `T1`, ... by the position of the call in the run. -/
def sampleAnswer (n : Nat) (arn : String) : StsCredentials :=
  { AccessKeyId := "ASIAKEY", SecretAccessKey := "secret of " ++ arn,
    SessionToken := if n = 0 then "T0" else if n = 1 then "T1" else "T2" }

/-- The sample world: every call succeeds. -/
def sampleWorld : World := World.ok envSeed ec2Seed "beef" sampleAnswer

/-- A keypair on a laptop, an MFA device and a chain of one role. -/
def staticMfaInput : ResolveRoleChainInput :=
  { AccessKey := "AKIAKEY", SecretAccessKey := "SECRET", Chain := [roleA],
    SerialNumber := "arn:aws:iam::123456789012:mfa/me", TokenCode := "123456" }

/-- A keypair on a laptop and a chain of one role. -/
def staticInput : ResolveRoleChainInput :=
  { AccessKey := "AKIAKEY", SecretAccessKey := "SECRET", Chain := [roleA] }

/-! ## The steps of the loop -/

/-- The log after the announcement of an elevation. -/
def logAbout (s : State) (link : String) : ResolveRoleChainLog :=
  s.log ++ ["about to assume role from link [" ++ link ++
    "] with prior creds [" ++ toString (decide (s.prior.AccessKeyID ≠ "")) ++ "]"]

/-- The elevation call the loop makes for a role link in state `s`. -/
def elevationAt (w : World) (s : State) (link : String) : Elevation :=
  GetAssumeRoleCreds w s.calls link s.input (assumeConfig s.input s.prior)

/-- The state in which the loop goes on after a successful elevation. -/
def stateAfter (w : World) (s : State) (link : String) : State :=
  { input := { s.input with SerialNumber := "", TokenCode := "" }
    prior := (elevationAt w s link).creds
    log := logAbout s link ++ ["assumed role from link: " ++ link]
    calls := s.calls ++ [Call.assumeRole (elevationAt w s link)] }

/-- A failed resolution as its caller sees it: a non-nil error and three empty
strings. -/
def Result.Aborted (r : Result) : Prop :=
  r.err ≠ none ∧ r.accessKey = "" ∧ r.secretAccessKey = "" ∧ r.sessionToken = ""

/-- No call of the list failed. -/
def Clean (calls : List Call) : Prop := ∀ c ∈ calls, c.err = none

/-- Whenever a call of the run failed, it was the last call of the run and the
run was aborted. -/
def Result.FailStops (r : Result) : Prop :=
  ∀ pre c post, r.calls = pre ++ c :: post → c.err ≠ none → post = [] ∧ r.Aborted

/-- A world whose STS rejects every request. -/
def rejectingWorld : World :=
  { sampleWorld with
    AssumeRole := fun _ _ _ => (⟨"", "", ""⟩, some (Error.new "AccessDenied")) }

/-- The instance alias followed by the backup role. -/
def backupInput : ResolveRoleChainInput :=
  { Chain := [InstanceRoleChainAlias, roleBackup] }

/-- The elevation to the backup role in the sample world, after the seed. -/
def backupElevation : Elevation :=
  GetAssumeRoleCreds sampleWorld [Call.ec2RoleCreds ec2Seed none] roleBackup backupInput
    (assumeConfig backupInput ec2Seed)

/-- The elevation to the backup role that the rejecting world refuses. -/
def rejectedElevation : Elevation :=
  GetAssumeRoleCreds rejectingWorld [Call.ec2RoleCreds ec2Seed none] roleBackup backupInput
    (assumeConfig backupInput ec2Seed)

/-- The triple a resolution returns. -/
def Result.triple (r : Result) : String × String × String :=
  (r.accessKey, r.secretAccessKey, r.sessionToken)

/-- The triple of a `credentials.Value`. -/
def Value.triple (v : Value) : String × String × String :=
  (v.AccessKeyID, v.SecretAccessKey, v.SessionToken)

/-- A chain that is a single seed alias of the environment. -/
def envOnlyInput : ResolveRoleChainInput :=
  { Chain := [EnvTempRoleChainAlias] }

/-- A chain whose first link is neither a role identifier nor an alias. -/
def unknownAliasInput : ResolveRoleChainInput :=
  { Chain := ["laptop", roleA] }

/-- The credentials a call returned. -/
def Call.creds : Call → Value
  | Call.envCreds creds _ => creds
  | Call.ec2RoleCreds creds _ => creds
  | Call.assumeRole e => e.creds

/-- The chain link a call serves: the alias of a seed call, the target role of an
elevation call. -/
def Call.link : Call → String
  | Call.envCreds _ _ => EnvTempRoleChainAlias
  | Call.ec2RoleCreds _ _ => InstanceRoleChainAlias
  | Call.assumeRole e => e.arn

/-- When the second call is an elevation, its basis is made of what the first
call returned, the way the loop makes it. -/
def Follows (c1 c2 : Call) : Prop :=
  ∀ e, c2 = Call.assumeRole e → e.config.Credentials = priorCredentials c1.creds

/-- A role identifier followed by a link that is neither blank nor a role
identifier. -/
def badSecondInput : ResolveRoleChainInput :=
  { Chain := [roleA, "laptop"] }

/-- The sample world with an STS client that validates the `RoleArn` of a
request the way the SDK does. -/
def validatingWorld : World :=
  { sampleWorld with
    AssumeRole := fun hist _ p =>
      if p.RoleArn.utf8ByteSize < 20 then
        (⟨"", "", ""⟩, some (Error.new "InvalidParameter: 1 validation error(s) found."))
      else
        (sampleAnswer hist.length p.RoleArn, none) }

/-- A world whose STS answers every request with an empty access key id next to
a secret and a token. -/
def blankKeyWorld : World :=
  { sampleWorld with
    AssumeRole := fun _ _ _ => (⟨"", "SECRET", "TOKEN"⟩, none) }

/-- A chain of two roles, no alias and no static credentials. -/
def twoRolesInput : ResolveRoleChainInput :=
  { Chain := [roleA, roleBackup] }

/-- The instance alias followed by two roles. -/
def threeLinkInput : ResolveRoleChainInput :=
  { Chain := [InstanceRoleChainAlias, roleBackup, roleA] }

/-- The second elevation of the three-link chain in the sample world. -/
def secondElevation : Elevation :=
  GetAssumeRoleCreds sampleWorld
    [Call.ec2RoleCreds ec2Seed none, Call.assumeRole backupElevation] roleA threeLinkInput
    (assumeConfig threeLinkInput backupElevation.creds)

/-- The input with another chain. -/
def withChain (i : ResolveRoleChainInput) (chain : List String) : ResolveRoleChainInput :=
  { i with Chain := chain }

/-- Two runs that made the same calls with the same answers, returned the same
triple and agree on success or failure. -/
def Result.SameOutcome (a b : Result) : Prop :=
  a.calls = b.calls ∧ a.triple = b.triple ∧ (a.err = none ↔ b.err = none)

/-- Two states of the loop that differ at most in the chain of the input and in
the log. -/
def State.SameUpToChain (a b : State) : Prop :=
  a.prior = b.prior ∧ a.calls = b.calls ∧ ∃ chain, a.input = withChain b.input chain

/-- The elevation call `ResolveRoleChain` makes to the first link with the static
credentials of the input as basis. -/
def staticElevation (w : World) (input : ResolveRoleChainInput) (first : String) : Elevation :=
  GetAssumeRoleCreds w [] first input
    { Credentials :=
        Credentials.static input.AccessKey input.SecretAccessKey input.SessionToken
      Region := input.Region }

/-! ## The credential cache (`internal/cage/aws/credentials/cache/cache.go`)

Go `string` and `[]byte` values are both sequences of bytes and are both `String`
here; Go `int64` and 64-bit `int` values are integers in the range of `isInt64`,
and arithmetic on them that can leave the range goes through `wrapInt64`. -/

/-- The range of a Go `int64`. -/
def isInt64 (x : Int) : Prop :=
  -9223372036854775808 ≤ x ∧ x ≤ 9223372036854775807

instance (x : Int) : Decidable (isInt64 x) := by
  unfold isInt64; infer_instance

/-- The `int64` a Go computation yields when its exact result is `x`: the
representative of `x` modulo `2^64` in the range of `int64`. -/
def wrapInt64 (x : Int) : Int :=
  (x + 9223372036854775808) % 18446744073709551616 - 9223372036854775808

/-- The value of `sha256.Sum256`, a `[32]byte`. -/
structure Hash32 where
  bytes : List (Fin 256)
  size : bytes.length = 32

/-- The `hextable` of `encoding/hex`. -/
def hextable : List Char := "0123456789abcdef".data

/-- `hex.EncodeToString`: two characters of `hextable` per byte, the high four
bits first. -/
def hexEncodeToString (src : List (Fin 256)) : String :=
  String.mk (src.flatMap fun b =>
    [hextable.getD (b.val / 16) '0', hextable.getD (b.val % 16) '0'])

namespace cache

/-- `cache.Key`. -/
structure Key where
  MfaSerial : String := ""
  Role : String := ""
deriving DecidableEq, Repr

/-- `cache.Value`; `Expires` is an `int64`. -/
structure Value where
  AccessKeyID : String := ""
  SecretAccessKey : String := ""
  SessionToken : String := ""
  Expires : Int := 0
deriving DecidableEq, Repr

/-- `cache.Store`. -/
structure Store where
  Dir : String
deriving DecidableEq, Repr

end cache

/-- The library functions the cache package calls, apart from the file system
and the clock. -/
structure Sys where
  /-- `sha256.Sum256`. -/
  Sum256 : String → Hash32
  /-- `filepath.Join` of two elements. -/
  filepathJoin : String → String → String
  /-- `json.Marshal` of a `cache.Value`. -/
  jsonMarshal : cache.Value → String × Option Error
  /-- `json.Unmarshal` of a buffer into a zero `cache.Value`: the value as it is
  left, and the error. -/
  jsonUnmarshal : String → cache.Value × Option Error

/-- What a path of the file system holds when it holds something: a regular file
that can be read, or something `ioutil.ReadFile` fails on with the given error
(which is not a not-exist error). -/
inductive Node where
  | file (content : String)
  | unreadable (err : Error)
deriving DecidableEq, Repr

/-- The file system as far as the cache sees it: the directories and files that
exist, the directories `os.MkdirAll` fails on and the paths `ioutil.WriteFile`
fails on.  A file that `ioutil.WriteFile` has written is a regular file that can
be read back. -/
structure FileSystem where
  dirs : List String := []
  files : String → Option Node := fun _ => none
  mkdirAllErr : String → Option Error := fun _ => none
  writeFileErr : String → Option Error := fun _ => none

/-- What `ioutil.ReadFile` returns: the content, an error for which
`os.IsNotExist` is true, or another error. -/
inductive ReadFileResult where
  | ok (buf : String)
  | notExist (err : Error)
  | failed (err : Error)
deriving DecidableEq, Repr

/-- `os.MkdirAll(dir, 0700)`. -/
def osMkdirAll (fs : FileSystem) (dir : String) : FileSystem × Option Error :=
  match fs.mkdirAllErr dir with
  | some err => (fs, some err)
  | none => ({ fs with dirs := if dir ∈ fs.dirs then fs.dirs else dir :: fs.dirs }, none)

/-- `ioutil.ReadFile(filename)`. -/
def ioutilReadFile (fs : FileSystem) (filename : String) : ReadFileResult :=
  match fs.files filename with
  | none => ReadFileResult.notExist
      (Error.new ("open " ++ filename ++ ": no such file or directory"))
  | some (Node.unreadable err) => ReadFileResult.failed err
  | some (Node.file content) => ReadFileResult.ok content

/-- `ioutil.WriteFile(filename, buf, 0600)`. -/
def ioutilWriteFile (fs : FileSystem) (filename : String) (buf : String) :
    FileSystem × Option Error :=
  match fs.writeFileErr filename with
  | some err => (fs, some err)
  | none =>
    ({ fs with files := fun p => if p = filename then some (Node.file buf) else fs.files p },
      none)

namespace cache

/-- `Key.String`. -/
def Key.String (sys : Sys) (k : Key) : String :=
  let hash := sys.Sum256 (k.MfaSerial ++ k.Role)
  hexEncodeToString hash.bytes

/-- `NewStore`. -/
def NewStore (dir : String) : Store := { Dir := dir }

/-- `Store.filename`. -/
def Store.filename (sys : Sys) (s : Store) (k : Key) : String :=
  sys.filepathJoin s.Dir (k.String sys)

/-- `Store.mkdir`. -/
def Store.mkdir (fs : FileSystem) (s : Store) : FileSystem × Option Error :=
  osMkdirAll fs s.Dir

/-- `Store.Write`: the file system after the call, and the error. -/
def Store.Write (sys : Sys) (fs : FileSystem) (s : Store) (k : Key) (out : Value) :
    FileSystem × Option Error :=
  match s.mkdir fs with
  | (fs1, some dirErr) => (fs1, errorsWithStack (some dirErr))
  | (fs1, none) =>
    match sys.jsonMarshal out with
    | (_, some jsonErr) => (fs1, errorsWithStack (some jsonErr))
    | (buf, none) =>
      let filename := s.filename sys k
      match ioutilWriteFile fs1 filename buf with
      | (fs2, some writeErr) =>
        (fs2, errorsWrap (some writeErr) ("failed to read cache file [" ++ filename ++ "]"))
      | (fs2, none) => (fs2, none)

/-- `Store.Read` at the moment when `time.Now().Unix()` is `now`: the file system
after the call, the value and the error. -/
def Store.Read (sys : Sys) (fs : FileSystem) (now : Int) (s : Store) (k : Key) :
    FileSystem × Value × Option Error :=
  match s.mkdir fs with
  | (fs1, some dirErr) => (fs1, {}, errorsWithStack (some dirErr))
  | (fs1, none) =>
    let filename := s.filename sys k
    match ioutilReadFile fs1 filename with
    | ReadFileResult.notExist _ => (fs1, {}, none)
    | ReadFileResult.failed readErr =>
      (fs1, {}, errorsWrap (some readErr) ("failed to read cache file [" ++ filename ++ "]"))
    | ReadFileResult.ok buf =>
      match sys.jsonUnmarshal buf with
      | (_, some jsonErr) => (fs1, {}, errorsWithStack (some jsonErr))
      | (v, none) =>
        if wrapInt64 (v.Expires - now) > 0 then (fs1, v, none)
        else (fs1, {}, none)

end cache

/-! ## The credentials broker (`internal/cage/cli/handler/mixin/aws/auth/auth.go`) -/

/-- A `*credentials.Credentials` as the providers and `Mixin.Credentials` return
it: the result of `credentials.NewStaticCredentials`, or the object of another
provider, given by what its `Get` returns. -/
inductive CredentialsObject where
  | static (id secret token : String)
  | other (value : Value) (err : Option Error)
deriving DecidableEq, Repr

/-- `Credentials.Get` of the SDK.  Static credentials without an access key id or
without a secret are refused with `ErrStaticCredentialsEmpty`. -/
def CredentialsObject.Get : CredentialsObject → Value × Option Error
  | CredentialsObject.static id secret token =>
    if id = "" ∨ secret = "" then
      ({}, some (Error.new "EmptyStaticCreds: static credentials are empty"))
    else
      ({ AccessKeyID := id, SecretAccessKey := secret, SessionToken := token,
         ProviderName := "StaticProvider" }, none)
  | CredentialsObject.other value none => (value, none)
  | CredentialsObject.other _ (some err) => ({}, some err)

/-- `time.Duration(x) * time.Second` for an `int64` number of seconds `x`: an
`int64` count of nanoseconds. -/
def secondsDuration (x : Int) : Int :=
  wrapInt64 (x * 1000000000)

/-- `t.Add(d).Unix()` for the instant `t` that is `nsec` nanoseconds
(`0 ≤ nsec < 10^9`) past the Unix time `sec`, and a duration of `d`
nanoseconds. -/
def unixAfter (sec : Int) (nsec : Nat) (d : Int) : Int :=
  sec + (nsec + d) / 1000000000

namespace auth

/-- `DefaultMfaSource`. -/
def DefaultMfaSource : String := "prompt"

/-- `defaultHomeCacheDir`. -/
def defaultHomeCacheDir : String := ".cage-aws-cache"

/-- `cacheEarlyTtlSec`. -/
def cacheEarlyTtlSec : Int := 10

/-- `ProviderInput` (without the context). -/
structure ProviderInput where
  MfaSerial : String := ""
  MfaCode : String := ""
  RoleChain : String := ""
  SessionTtlSec : Int := 0
deriving DecidableEq, Repr

/-- `Provider`: its `Get`, which returns credentials or an error. -/
abbrev Provider := ProviderInput → Except Error CredentialsObject

/-- `Mixin`, the fields `Credentials` reads; `SessionTtlSec` is a 64-bit `int`. -/
structure Mixin where
  CacheDir : String := ""
  CacheSkip : Bool := false
  MfaSerial : String := ""
  MfaSource : String := DefaultMfaSource
  RoleChain : String := ""
  SessionTtlSec : Int := 900
deriving DecidableEq, Repr

/-- What one call of `Credentials` finds around it. -/
structure Env where
  /-- `homedir.Dir()`. -/
  homedirDir : String × Option Error
  /-- `terminal.DefaultProvider{}.PromptHiddenf("MFA token:")`. -/
  PromptHiddenf : String × Option Error
  /-- `os.Getenv`. -/
  Getenv : String → String
  /-- `time.Now().Unix()` in `Store.Read`. -/
  readNow : Int
  /-- `time.Now()` when the expiry is computed: the Unix time. -/
  writeNow : Int
  /-- `time.Now()` when the expiry is computed: the nanoseconds past it. -/
  writeNowNsec : Nat

/-- What a call of `Credentials` did: whether `log.Fatalf` ended the process, the
two Go results, the mixin and the file system as they were left, whether
`Store.Read` was called, the input of `provider.Get` if it was called, and the
key and value of `Store.Write` if it was called. -/
structure Outcome where
  exited : Bool := false
  creds : Option CredentialsObject := none
  err : Option Error := none
  m : Mixin
  fs : FileSystem
  cacheRead : Bool := false
  providerInput : Option ProviderInput := none
  written : Option (cache.Key × cache.Value) := none

/-- The part of `Credentials` from `if cacheVal.AccessKeyID == ""` on. -/
def Mixin.resolve (sys : Sys) (env : Env) (provider : Provider) (m : Mixin)
    (fs : FileSystem) (cacheRead : Bool) (mfaCode : String)
    (cacheStore : cache.Store) (cacheKey : cache.Key) (cacheVal : cache.Value) : Outcome :=
  if cacheVal.AccessKeyID = "" then
    let input : ProviderInput :=
      { MfaSerial := m.MfaSerial, MfaCode := mfaCode, RoleChain := m.RoleChain,
        SessionTtlSec := m.SessionTtlSec }
    match provider input with
    | Except.error providerErr =>
      { m := m, fs := fs, cacheRead := cacheRead, providerInput := some input,
        err := errorsWrap (some providerErr) "failed to get credentials provider" }
    | Except.ok creds =>
      match creds.Get with
      | (_, some credsErr) =>
        { m := m, fs := fs, cacheRead := cacheRead, providerInput := some input,
          err := errorsWrap (some credsErr) "failed to get credentials value" }
      | (credsVal, none) =>
        let cacheVal : cache.Value :=
          { AccessKeyID := credsVal.AccessKeyID
            SecretAccessKey := credsVal.SecretAccessKey
            SessionToken := credsVal.SessionToken
            Expires := unixAfter env.writeNow env.writeNowNsec
              (secondsDuration (wrapInt64 (m.SessionTtlSec - cacheEarlyTtlSec))) }
        match cacheStore.Write sys fs cacheKey cacheVal with
        | (fs1, some writeErr) =>
          { m := m, fs := fs1, cacheRead := cacheRead, providerInput := some input,
            written := some (cacheKey, cacheVal),
            err := errorsWrap (some writeErr)
              ("failed to write cache key [" ++ cacheKey.String sys ++ "]") }
        | (fs1, none) =>
          { m := m, fs := fs1, cacheRead := cacheRead, providerInput := some input,
            written := some (cacheKey, cacheVal), creds := some creds }
  else
    { m := m, fs := fs, cacheRead := cacheRead,
      creds := some (CredentialsObject.static cacheVal.AccessKeyID cacheVal.SecretAccessKey
        cacheVal.SessionToken) }

/-- The part of `Credentials` from `var cacheVal cache.Value` on, with the cache
directory set and the MFA code known. -/
def Mixin.lookup (sys : Sys) (env : Env) (provider : Provider) (m : Mixin)
    (fs : FileSystem) (mfaCode : String) : Outcome :=
  let cacheStore := cache.NewStore m.CacheDir
  let cacheKey : cache.Key := { MfaSerial := m.MfaSerial, Role := m.RoleChain }
  if ¬ m.CacheSkip then
    match cacheStore.Read sys fs env.readNow cacheKey with
    | (fs1, _, some readErr) =>
      { m := m, fs := fs1, cacheRead := true,
        err := errorsWrap (some readErr)
          ("failed to read cache key [" ++ cacheKey.String sys ++ "]") }
    | (fs1, cacheVal, none) =>
      m.resolve sys env provider fs1 true mfaCode cacheStore cacheKey cacheVal
  else
    m.resolve sys env provider fs false mfaCode cacheStore cacheKey {}

/-- The part of `Credentials` from `var mfaCode string` on, with the cache
directory set. -/
def Mixin.withCacheDir (sys : Sys) (env : Env) (provider : Provider) (m : Mixin)
    (fs : FileSystem) : Outcome :=
  if m.MfaSerial ≠ "" then
    if m.MfaSource = DefaultMfaSource then
      match env.PromptHiddenf with
      | (_, some _) => { m := m, fs := fs, exited := true }
      | (mfaCodeBytes, none) => m.lookup sys env provider fs mfaCodeBytes
    else
      m.lookup sys env provider fs (env.Getenv m.MfaSource)
  else
    m.lookup sys env provider fs ""

/-- `Mixin.Credentials`. -/
def Mixin.Credentials (sys : Sys) (env : Env) (provider : Provider) (m : Mixin)
    (fs : FileSystem) : Outcome :=
  if m.CacheDir = "" then
    match env.homedirDir with
    | (_, some homeErr) =>
      { m := m, fs := fs,
        err := errorsWrap (some homeErr)
          "failed to detect home dir for use as default --cache-dir" }
    | (homeDir, none) =>
      Mixin.withCacheDir sys env provider
        { m with CacheDir := sys.filepathJoin homeDir defaultHomeCacheDir } fs
  else
    Mixin.withCacheDir sys env provider m fs

end auth

/-! ## The role provider (`Mixin.Get` of the `auth/role` mixin) -/

/-- The pieces of a list of characters between the occurrences of `sep`. -/
def splitOnChar (sep : Char) : List Char → List (List Char)
  | [] => [[]]
  | c :: cs =>
    if c = sep then [] :: splitOnChar sep cs
    else
      match splitOnChar sep cs with
      | [] => [[c]]
      | piece :: pieces => (c :: piece) :: pieces

/-- `strings.Split(s, sep)` for a separator of one character. -/
def stringsSplit (s : String) (sep : Char) : List String :=
  (splitOnChar sep s.data).map String.mk

/-- `unicode.IsSpace`: tab, line feed, vertical tab, form feed, carriage return,
space, U+0085, U+00A0 and the characters with the White_Space property above
Latin-1. -/
def unicodeIsSpace (c : Char) : Bool :=
  c.toNat ∈ [0x09, 0x0A, 0x0B, 0x0C, 0x0D, 0x20, 0x85, 0xA0, 0x1680, 0x2028, 0x2029,
    0x202F, 0x205F, 0x3000] ∨ (0x2000 ≤ c.toNat ∧ c.toNat ≤ 0x200A)

/-- `strings.TrimSpace` on the characters of a string. -/
def trimSpaceChars (cs : List Char) : List Char :=
  ((cs.dropWhile unicodeIsSpace).reverse.dropWhile unicodeIsSpace).reverse

/-- `strings.TrimSpace`. -/
def stringsTrimSpace (s : String) : String :=
  String.mk (trimSpaceChars s.data)

namespace role

/-- The loop of `Get` over the pieces of the role chain, `parsedRoleChain` being
the links appended so far. -/
def parseLoop : List String → List String → List String
  | [], parsedRoleChain => parsedRoleChain
  | role :: pieces, parsedRoleChain =>
    let role := stringsTrimSpace role
    if role ≠ "" then parseLoop pieces (parsedRoleChain ++ [role])
    else parseLoop pieces parsedRoleChain

/-- The `parsedRoleChain` of `Get`. -/
def parsedRoleChain (roleChain : String) : List String :=
  parseLoop (stringsSplit roleChain ',') []

/-- The role chain as the specification words it: the comma-separated pieces,
each trimmed of white space, without the empty ones, in their order. -/
def trimmedPieces (roleChain : String) : List String :=
  ((stringsSplit roleChain ',').map stringsTrimSpace).filter (fun piece => piece ≠ "")

/-- The `resolveInput` of `Get`; `int64(input.SessionTtlSec)` is the same number. -/
def resolveInput (input : auth.ProviderInput) : ResolveRoleChainInput :=
  { Chain := parsedRoleChain input.RoleChain
    DurationSeconds := input.SessionTtlSec
    SerialNumber := if input.MfaSerial ≠ "" then input.MfaSerial else ""
    TokenCode := if input.MfaSerial ≠ "" then input.MfaCode else "" }

/-- What a call of `Get` did: the two Go results, and the input and result of
`ResolveRoleChain` if it was called. -/
structure GetResult where
  creds : Option CredentialsObject
  err : Option Error
  resolved : Option (ResolveRoleChainInput × Result)

/-- `Mixin.Get` of the role provider. -/
def Get (w : World) (input : auth.ProviderInput) : GetResult :=
  if (parsedRoleChain input.RoleChain).length = 0 then
    { creds := none, err := some (Error.new "role chain required"), resolved := none }
  else
    let r := ResolveRoleChain w (resolveInput input)
    match r.err with
    | some resolveErr =>
      { creds := none
        err := errorsWrap (some resolveErr)
          ("failed to resolve role chain [" ++
            stringsJoin (parsedRoleChain input.RoleChain) "," ++ "]")
        resolved := some (resolveInput input, r) }
    | none =>
      { creds := some (CredentialsObject.static r.accessKey r.secretAccessKey r.sessionToken)
        err := none
        resolved := some (resolveInput input, r) }

/-- The role provider as an `auth.Provider`. -/
def provider (w : World) : auth.Provider := fun input =>
  match Get w input with
  | { creds := some creds, err := none, .. } => Except.ok creds
  | { err := some err, .. } => Except.error err
  | { creds := none, err := none, .. } => Except.error (Error.new "nil credentials")

end role

/-! ## Sample data for the cache -/

/-- A stand-in for SHA-256 in the sample system: 32 bytes that only tell the
length of the input. -/
def sampleSum256 (data : String) : Hash32 :=
  { bytes := List.replicate 32 (Fin.ofNat data.length)
    size := List.length_replicate _ _ }

/-- An entry that expires at Unix time 2000000000. -/
def liveEntry : cache.Value :=
  { AccessKeyID := "ASIACACHED", SecretAccessKey := "cachedsecret",
    SessionToken := "cachedtoken", Expires := 2000000000 }

/-- An entry whose expiry is the least `int64`. -/
def ancientEntry : cache.Value :=
  { AccessKeyID := "ASIAANCIENT", SecretAccessKey := "ancientsecret",
    SessionToken := "ancienttoken", Expires := -9223372036854775808 }

/-- An unexpired entry without an access key id. -/
def keylessEntry : cache.Value :=
  { AccessKeyID := "", SecretAccessKey := "cachedsecret",
    SessionToken := "cachedtoken", Expires := 2000000000 }

/-- The entry a fresh resolution of the sample provider writes at Unix time
1700000000 with a session of 900 seconds. -/
def freshEntry : cache.Value :=
  { AccessKeyID := "ASIAFRESH", SecretAccessKey := "freshsecret",
    SessionToken := "freshtoken", Expires := 1700000890 }

/-- The entries the sample codec knows. -/
def sampleEntries : List cache.Value :=
  [liveEntry, ancientEntry, keylessEntry, freshEntry]

/-- The text the sample codec stores for an entry. -/
def sampleRender (v : cache.Value) : String :=
  "entry " ++ v.AccessKeyID ++ " " ++ v.SecretAccessKey

/-- A stand-in for `encoding/json` in the sample system: it stores a short text
per entry and decodes the texts of `sampleEntries`; every other text is
malformed. -/
def sampleSys : Sys :=
  { Sum256 := sampleSum256
    filepathJoin := fun dir name => dir ++ "/" ++ name
    jsonMarshal := fun v => (sampleRender v, none)
    jsonUnmarshal := fun buf =>
      match sampleEntries.find? (fun v => sampleRender v = buf) with
      | some v => (v, none)
      | none => ({}, some (Error.new "invalid character")) }

/-- The store of the samples. -/
def sampleStore : cache.Store := cache.NewStore "/home/me/.cage-aws-cache"

/-- The key of the samples. -/
def sampleKey : cache.Key := { MfaSerial := "", Role := "instance," ++ roleBackup }

/-- An empty file system in which nothing fails. -/
def emptyFS : FileSystem := {}

/-- Two keys with different fields and the same concatenation. -/
def keyAbC : cache.Key := { MfaSerial := "ab", Role := "c" }

/-- The other key with that concatenation. -/
def keyABc : cache.Key := { MfaSerial := "a", Role := "bc" }

/-- A file system whose only file is the cache file of the sample key, holding
the entry whose expiry is the least `int64`. -/
def ancientFS : FileSystem :=
  { files := fun p =>
      if p = sampleStore.filename sampleSys sampleKey then
        some (Node.file (sampleRender ancientEntry))
      else none }

/-- A file system whose only file is the cache file of the sample key, holding
the entry that expires at Unix time 2000000000. -/
def liveFS : FileSystem :=
  { files := fun p =>
      if p = sampleStore.filename sampleSys sampleKey then
        some (Node.file (sampleRender liveEntry))
      else none }

/-- A file system in which the cache file of the sample key cannot be read. -/
def lockedFS : FileSystem :=
  { files := fun p =>
      if p = sampleStore.filename sampleSys sampleKey then
        some (Node.unreadable (Error.new "permission denied"))
      else none }

/-! ## Sample data for the broker -/

/-- The credentials the sample provider returns. -/
def freshValue : Value :=
  { AccessKeyID := "ASIAFRESH", SecretAccessKey := "freshsecret", SessionToken := "freshtoken",
    ProviderName := "CognitoProvider" }

/-- A provider that always returns `freshValue`. -/
def sampleProvider : auth.Provider :=
  fun _ => Except.ok (CredentialsObject.other freshValue none)

/-- A provider that always fails. -/
def failingProvider : auth.Provider :=
  fun _ => Except.error (Error.new "NotAuthorizedException")

/-- A call at Unix time 1700000000 (and 5 nanoseconds) in an environment where
the home directory is found and the prompt answers. -/
def sampleEnv : auth.Env :=
  { homedirDir := ("/home/me", none)
    PromptHiddenf := ("123456", none)
    Getenv := fun _ => ""
    readNow := 1700000000
    writeNow := 1700000000
    writeNowNsec := 5 }

/-- A later call, at Unix time 1700000100. -/
def laterEnv : auth.Env :=
  { sampleEnv with readNow := 1700000100, writeNow := 1700000100 }

/-- A call in an environment where the home directory cannot be detected. -/
def homelessEnv : auth.Env :=
  { sampleEnv with homedirDir := ("", some (Error.new "missing $HOME")) }

/-- The mixin of the samples: the cache directory is given, the chain is the
instance alias followed by the backup role, the session lasts 900 seconds. -/
def sampleMixin : auth.Mixin :=
  { CacheDir := "/home/me/.cage-aws-cache", RoleChain := "instance," ++ roleBackup }

/-- The sample mixin with `--cache-skip`. -/
def skipMixin : auth.Mixin :=
  { sampleMixin with CacheSkip := true }

/-- The sample mixin with `--cache-skip` and without a cache directory. -/
def skipHomeMixin : auth.Mixin :=
  { sampleMixin with CacheSkip := true, CacheDir := "" }

/-- The sample mixin with a session of 9223372047 seconds. -/
def longSessionMixin : auth.Mixin :=
  { sampleMixin with SessionTtlSec := 9223372047 }

/-- A file system whose only file is the cache file of the sample key, holding
the unexpired entry without an access key id. -/
def keylessFS : FileSystem :=
  { files := fun p =>
      if p = sampleStore.filename sampleSys sampleKey then
        some (Node.file (sampleRender keylessEntry))
      else none }

/-! ## The steps of the broker -/

namespace auth

/-- The input `Credentials` hands to `provider.Get`. -/
def Mixin.providerInput (m : Mixin) (mfaCode : String) : ProviderInput :=
  { MfaSerial := m.MfaSerial, MfaCode := mfaCode, RoleChain := m.RoleChain,
    SessionTtlSec := m.SessionTtlSec }

/-- The cache key `Credentials` derives. -/
def Mixin.cacheKey (m : Mixin) : cache.Key :=
  { MfaSerial := m.MfaSerial, Role := m.RoleChain }

/-- The entry `Credentials` writes for the credentials value of the provider. -/
def Mixin.entryFor (env : Env) (m : Mixin) (credsVal : AwsExecCmd.Value) : cache.Value :=
  { AccessKeyID := credsVal.AccessKeyID
    SecretAccessKey := credsVal.SecretAccessKey
    SessionToken := credsVal.SessionToken
    Expires := unixAfter env.writeNow env.writeNowNsec
      (secondsDuration (wrapInt64 (m.SessionTtlSec - cacheEarlyTtlSec))) }

/-- The cache directory `Credentials` works with. -/
def Mixin.resolvedCacheDir (sys : Sys) (env : Env) (m : Mixin) : String :=
  if m.CacheDir = "" then sys.filepathJoin env.homedirDir.1 defaultHomeCacheDir
  else m.CacheDir

/-- The call gets past the detection of the home directory and past the MFA
prompt. -/
def Mixin.ReachesCache (env : Env) (m : Mixin) : Prop :=
  (m.CacheDir ≠ "" ∨ env.homedirDir.2 = none) ∧
  (m.MfaSerial = "" ∨ m.MfaSource ≠ DefaultMfaSource ∨ env.PromptHiddenf.2 = none)

instance (env : Env) (m : Mixin) : Decidable (m.ReachesCache env) := by
  unfold Mixin.ReachesCache; infer_instance

end auth

/-- The property of an outcome that `lookup_outcome` establishes: the process was
not ended, the provider was called with the input of the mixin if it was called
at all, and a provider that was called and failed means an error, no credentials,
no write and the files as they were in `fs`. -/
def auth.Outcome.Regular (provider : auth.Provider) (m : auth.Mixin) (mfaCode : String)
    (fs : FileSystem) (r : auth.Outcome) : Prop :=
  r.exited = false ∧
  (∀ input, r.providerInput = some input → input = m.providerInput mfaCode) ∧
  (∀ providerErr, r.providerInput ≠ none →
    provider (m.providerInput mfaCode) = Except.error providerErr →
    r.err ≠ none ∧ r.creds = none ∧ r.written = none ∧ r.fs.files = fs.files)

/-- The sample mixin with an MFA device whose code is prompted for. -/
def mfaMixin : auth.Mixin :=
  { sampleMixin with MfaSerial := "arn:aws:iam::123456789012:mfa/me" }

/-- The outcome of the sample mixin with `--cache-skip` on the empty file system. -/
def skipOutcome : auth.Outcome :=
  skipMixin.Credentials sampleSys sampleEnv sampleProvider emptyFS

/-! ## Sample data for the random source -/

/-- The sample world with a random source that fails. -/
def randFailWorld : World :=
  { sampleWorld with
    RandHexString := fun _ _ => ("", some (Error.new "unexpected EOF")) }

/-- A chain of one role, no session name and no static credentials. -/
def oneRoleInput : ResolveRoleChainInput :=
  { Chain := [roleA] }

/-! ## Sample data for the role provider -/

/-- A role chain as a user may type it: padded with blanks and with empty
pieces. -/
def paddedRoleChainInput : auth.ProviderInput :=
  { RoleChain := " instance , arn:aws:iam::123456789012:role/a,, " }

/-! # Theorems -/

/-! ## Unfolding the loop -/

theorem loop_nil (w : World) (s : State) : ResolveRoleChain.loop w [] s = s.done := rfl

theorem loop_blank (w : World) (chain : List String) (s : State) :
    ResolveRoleChain.loop w ("" :: chain) s = ResolveRoleChain.loop w chain s := by
  simp [ResolveRoleChain.loop]

theorem loop_not_arn (w : World) (link : String) (chain : List String) (s : State)
    (hb : link ≠ "") (ha : IsARN link = false) :
    ResolveRoleChain.loop w (link :: chain) s =
      s.fail (resolveErr s.input s.log (some (Error.new
        ("non-ARN role is only allowed in first chain role, chain [" ++
          stringsJoin s.input.Chain "," ++ "]")))) := by
  simp [ResolveRoleChain.loop, hb, ha]

theorem loop_arn_err (w : World) (link : String) (chain : List String) (s : State)
    (ha : IsARN link = true) (err : Error) (he : (elevationAt w s link).err = some err) :
    ResolveRoleChain.loop w (link :: chain) s =
      State.fail { input := s.input, prior := (elevationAt w s link).creds,
                   log := logAbout s link,
                   calls := s.calls ++ [Call.assumeRole (elevationAt w s link)] }
        (resolveErr s.input (logAbout s link) (some err)) := by
  have hb : link ≠ "" := by
    rintro rfl
    exact absurd ha (by decide)
  unfold elevationAt at he
  simp only [ResolveRoleChain.loop, hb, ha, he, elevationAt, logAbout]
  simp

theorem loop_arn_ok (w : World) (link : String) (chain : List String) (s : State)
    (ha : IsARN link = true) (he : (elevationAt w s link).err = none) :
    ResolveRoleChain.loop w (link :: chain) s =
      ResolveRoleChain.loop w chain (stateAfter w s link) := by
  have hb : link ≠ "" := by
    rintro rfl
    exact absurd ha (by decide)
  unfold elevationAt at he
  simp only [ResolveRoleChain.loop, hb, ha, he, elevationAt, logAbout, stateAfter]
  simp

/-- Case analysis on one turn of the loop. -/
theorem loop_cases (w : World) (link : String) (chain : List String) (s : State) :
    (link = "" ∧ ResolveRoleChain.loop w (link :: chain) s = ResolveRoleChain.loop w chain s) ∨
    (link ≠ "" ∧ IsARN link = false ∧
      ResolveRoleChain.loop w (link :: chain) s =
        s.fail (resolveErr s.input s.log (some (Error.new
          ("non-ARN role is only allowed in first chain role, chain [" ++
            stringsJoin s.input.Chain "," ++ "]"))))) ∨
    (IsARN link = true ∧ ∃ err, (elevationAt w s link).err = some err ∧
      ResolveRoleChain.loop w (link :: chain) s =
        State.fail { input := s.input, prior := (elevationAt w s link).creds,
                     log := logAbout s link,
                     calls := s.calls ++ [Call.assumeRole (elevationAt w s link)] }
          (resolveErr s.input (logAbout s link) (some err))) ∨
    (IsARN link = true ∧ (elevationAt w s link).err = none ∧
      ResolveRoleChain.loop w (link :: chain) s =
        ResolveRoleChain.loop w chain (stateAfter w s link)) := by
  by_cases hb : link = ""
  · subst hb
    exact Or.inl ⟨rfl, loop_blank w chain s⟩
  · cases ha : IsARN link with
    | false => exact Or.inr (Or.inl ⟨hb, rfl, loop_not_arn w link chain s hb ha⟩)
    | true =>
      cases he : (elevationAt w s link).err with
      | some err => exact Or.inr (Or.inr (Or.inl ⟨rfl, err, rfl, loop_arn_err w link chain s ha err he⟩))
      | none => exact Or.inr (Or.inr (Or.inr ⟨rfl, rfl, loop_arn_ok w link chain s ha he⟩))

/-- A Hoare-style rule for the loop: a state property `P` kept by every
successful elevation and a result property `Q` established at each of the three
exits give `Q` of the loop from every state with `P`. -/
theorem loop_induction (w : World) (P : State → Prop) (Q : Result → Prop)
    (hdone : ∀ s, P s → Q s.done)
    (hbad : ∀ s link, P s → link ≠ "" → IsARN link = false →
      Q (s.fail (resolveErr s.input s.log (some (Error.new
        ("non-ARN role is only allowed in first chain role, chain [" ++
          stringsJoin s.input.Chain "," ++ "]"))))))
    (herr : ∀ s link err, P s → IsARN link = true →
      (elevationAt w s link).err = some err →
      Q (State.fail { input := s.input, prior := (elevationAt w s link).creds,
                      log := logAbout s link,
                      calls := s.calls ++ [Call.assumeRole (elevationAt w s link)] }
          (resolveErr s.input (logAbout s link) (some err))))
    (hok : ∀ s link, P s → IsARN link = true → (elevationAt w s link).err = none →
      P (stateAfter w s link)) :
    ∀ chain s, P s → Q (ResolveRoleChain.loop w chain s) := by
  intro chain
  induction chain with
  | nil => intro s hs; exact hdone s hs
  | cons link chain ih =>
    intro s hs
    rcases loop_cases w link chain s with ⟨_, h⟩ | ⟨hb, ha, h⟩ | ⟨ha, err, he, h⟩ | ⟨ha, he, h⟩
    · rw [h]; exact ih s hs
    · rw [h]; exact hbad s link hs hb ha
    · rw [h]; exact herr s link err hs ha he
    · rw [h]; exact ih _ (hok s link hs ha he)

/-- The nine ways through `ResolveRoleChain`: the three exits and the three
entries into the loop of the branch without static credentials, the failure and
the loop entry of the branch with static credentials, and the empty chain. -/
theorem ResolveRoleChain_cases (w : World) (input : ResolveRoleChainInput) :
    (input.Chain = [] ∧
      ResolveRoleChain w input =
        State.fail { input := input } (some (Error.new "no links in role chain"))) ∨
    (∃ first rest, input.Chain = first :: rest ∧
      ((input.hasStaticCreds ∧
        ∃ e, e = GetAssumeRoleCreds w [] first input
                  { Credentials := Credentials.static input.AccessKey input.SecretAccessKey
                      input.SessionToken,
                    Region := input.Region } ∧
          ((∃ err, e.err = some err ∧ ResolveRoleChain w input =
              State.fail { input := input, prior := e.creds, calls := [Call.assumeRole e] }
                (errorsWrap (some err)
                  ("failed to assume role [" ++ first ++ "] using intiial static creds"))) ∨
           (e.err = none ∧ ResolveRoleChain w input =
              ResolveRoleChain.loop w (first :: rest)
                { input := input, prior := e.creds, calls := [Call.assumeRole e] }))) ∨
       (¬ input.hasStaticCreds ∧ IsARN first = true ∧
          ResolveRoleChain w input =
            ResolveRoleChain.loop w (first :: rest) { input := input }) ∨
       (¬ input.hasStaticCreds ∧ IsARN first = false ∧ first = EnvTempRoleChainAlias ∧
          ((∃ err, w.envCredentialsGet.2 = some err ∧ ResolveRoleChain w input =
              State.fail { input := input, prior := w.envCredentialsGet.1,
                           calls := [Call.envCreds w.envCredentialsGet.1 (some err)] }
                (resolveErr input [] (some err))) ∨
           (w.envCredentialsGet.2 = none ∧ ResolveRoleChain w input =
              ResolveRoleChain.loop w rest
                { input := input, prior := w.envCredentialsGet.1,
                  log := ["seeded chain with env-triple creds"],
                  calls := [Call.envCreds w.envCredentialsGet.1 none] }))) ∨
       (¬ input.hasStaticCreds ∧ IsARN first = false ∧ first = InstanceRoleChainAlias ∧
          ((∃ err, (GetEC2RoleCreds w).2 = some err ∧ ResolveRoleChain w input =
              State.fail { input := input, prior := (GetEC2RoleCreds w).1,
                           calls := [Call.ec2RoleCreds (GetEC2RoleCreds w).1 (some err)] }
                (resolveErr input [] (some err))) ∨
           ((GetEC2RoleCreds w).2 = none ∧ ResolveRoleChain w input =
              ResolveRoleChain.loop w rest
                { input := input, prior := (GetEC2RoleCreds w).1,
                  log := ["seeded chain with instance role creds"],
                  calls := [Call.ec2RoleCreds (GetEC2RoleCreds w).1 none] }))) ∨
       (¬ input.hasStaticCreds ∧ IsARN first = false ∧ first ≠ EnvTempRoleChainAlias ∧
          first ≠ InstanceRoleChainAlias ∧
          ResolveRoleChain w input =
            State.fail { input := input } (some (Error.new
              ("role chain first-link alias [" ++ first ++ "] is not recognized")))))) := by
  cases hc : input.Chain with
  | nil => left; simp [ResolveRoleChain, hc]
  | cons first rest =>
    right
    refine ⟨first, rest, rfl, ?_⟩
    by_cases hs : input.hasStaticCreds
    · left
      refine ⟨hs, _, rfl, ?_⟩
      have hs' : input.AccessKey ≠ "" ∧ input.SecretAccessKey ≠ "" := hs
      cases he : (GetAssumeRoleCreds w [] first input
          { Credentials := Credentials.static input.AccessKey input.SecretAccessKey
              input.SessionToken,
            Region := input.Region }).err with
      | some err => left; refine ⟨err, rfl, ?_⟩; simp [ResolveRoleChain, hc, hs', he]
      | none => right; refine ⟨rfl, ?_⟩; simp [ResolveRoleChain, hc, hs', he]
    · right
      have hs' : ¬ (input.AccessKey ≠ "" ∧ input.SecretAccessKey ≠ "") := hs
      cases ha : IsARN first with
      | true => left; refine ⟨hs, rfl, ?_⟩; simp only [ResolveRoleChain, hc, hs', ha]; simp
      | false =>
        right
        by_cases h1 : first = EnvTempRoleChainAlias
        · left
          refine ⟨hs, rfl, h1, ?_⟩
          subst h1
          rcases hg : w.envCredentialsGet with ⟨creds, _ | err⟩
          · right; refine ⟨rfl, ?_⟩; simp [ResolveRoleChain, hc, hs', ha, hg]
          · left; refine ⟨err, rfl, ?_⟩; simp [ResolveRoleChain, hc, hs', ha, hg]
        · right
          by_cases h2 : first = InstanceRoleChainAlias
          · left
            refine ⟨hs, rfl, h2, ?_⟩
            subst h2
            rcases hg : GetEC2RoleCreds w with ⟨creds, _ | err⟩
            · right; refine ⟨rfl, ?_⟩; simp [ResolveRoleChain, hc, hs', ha, h1, hg]
            · left; refine ⟨err, rfl, ?_⟩; simp [ResolveRoleChain, hc, hs', ha, h1, hg]
          · right
            refine ⟨hs, rfl, h1, h2, ?_⟩
            simp only [ResolveRoleChain, hc, hs', ha, h1, h2]; simp

/-! ## Failure stops the run -/

theorem mem_of_split_concat {α : Type} (pre post init : List α) (c x : α)
    (h : pre ++ c :: post = init ++ [x]) : post = [] ∨ c ∈ init := by
  rcases List.eq_nil_or_concat post with hp | ⟨L, b, hp⟩
  · exact Or.inl hp
  · right
    subst hp
    have h' : (pre ++ c :: L) ++ [b] = init ++ [x] := by simpa using h
    have := List.append_inj_left' h' rfl
    rw [← this]
    simp

theorem failStops_of_clean (r : Result) (h : Clean r.calls) : r.FailStops := by
  intro pre c post hc hne
  have : c ∈ r.calls := by rw [hc]; simp
  exact absurd (h c this) hne

theorem failStops_fail (s : State) (err : Error) (init : List Call) (x : Call)
    (hs : s.calls = init ++ [x]) (hinit : Clean init) : (s.fail (some err)).FailStops := by
  intro pre c post hc hne
  have hc' : pre ++ c :: post = init ++ [x] := by rw [← hs]; exact hc.symm
  rcases mem_of_split_concat pre post init c x hc' with hp | hm
  · exact ⟨hp, by simp [State.fail], rfl, rfl, rfl⟩
  · exact absurd (hinit c hm) hne

theorem resolveErr_some (input : ResolveRoleChainInput) (log : ResolveRoleChainLog)
    (err : Error) : ∃ err', resolveErr input log (some err) = some err' :=
  ⟨_, rfl⟩

theorem loop_failStops (w : World) (chain : List String) (s : State) (hs : Clean s.calls) :
    (ResolveRoleChain.loop w chain s).FailStops := by
  refine loop_induction w (fun s => Clean s.calls) Result.FailStops ?_ ?_ ?_ ?_ chain s hs
  · intro s hs
    exact failStops_of_clean _ hs
  · intro s link hs _ _
    exact failStops_of_clean _ hs
  · intro s link err hs _ _
    exact failStops_fail _ _ s.calls _ rfl hs
  · intro s link hs _ he c hc
    simp only [stateAfter, List.mem_append, List.mem_singleton] at hc
    rcases hc with hc | rfl
    · exact hs c hc
    · exact he

theorem ResolveRoleChain_failStops (w : World) (input : ResolveRoleChainInput) :
    (ResolveRoleChain w input).FailStops := by
  rcases ResolveRoleChain_cases w input with
    ⟨_, h⟩ | ⟨first, rest, _, ⟨_, e, _, ⟨err, _, h⟩ | ⟨he, h⟩⟩ | ⟨_, _, h⟩ |
      ⟨_, _, _, ⟨err, _, h⟩ | ⟨_, h⟩⟩ | ⟨_, _, _, ⟨err, _, h⟩ | ⟨_, h⟩⟩ | ⟨_, _, _, _, h⟩⟩
  · rw [h]; exact failStops_of_clean _ (by intro c hc; simp [State.fail] at hc)
  · rw [h]; exact failStops_fail _ _ [] _ rfl (by intro c hc; simp at hc)
  · rw [h]; apply loop_failStops
    intro c hc
    simp only [List.mem_singleton] at hc
    subst hc; exact he
  · rw [h]; apply loop_failStops
    intro c hc; simp at hc
  · rw [h]; exact failStops_fail _ _ [] _ rfl (by intro c hc; simp at hc)
  · rw [h]; apply loop_failStops
    intro c hc
    simp only [List.mem_singleton] at hc
    subst hc; rfl
  · rw [h]; exact failStops_fail _ _ [] _ rfl (by intro c hc; simp at hc)
  · rw [h]; apply loop_failStops
    intro c hc
    simp only [List.mem_singleton] at hc
    subst hc; rfl
  · rw [h]; exact failStops_of_clean _ (by intro c hc; simp [State.fail] at hc)

/-- C3: whenever an elevation call of `ResolveRoleChain` returns a non-nil error,
no seed or elevation call follows it, and `ResolveRoleChain` returns a non-nil
error together with three empty strings. -/
theorem C3_failed_elevation_aborts (w : World) (input : ResolveRoleChainInput)
    (pre post : List Call) (e : Elevation)
    (hcalls : (ResolveRoleChain w input).calls = pre ++ Call.assumeRole e :: post)
    (hfail : e.err ≠ none) :
    post = [] ∧ (ResolveRoleChain w input).err ≠ none ∧
      (ResolveRoleChain w input).accessKey = "" ∧
      (ResolveRoleChain w input).secretAccessKey = "" ∧
      (ResolveRoleChain w input).sessionToken = "" :=
  ResolveRoleChain_failStops w input pre (Call.assumeRole e) post hcalls hfail

/-- C3 (witness): the instance alias followed by the backup role, in a world whose
STS rejects every request. -/
theorem C3_failed_elevation_aborts_witness :
    (ResolveRoleChain rejectingWorld backupInput).calls =
        [Call.ec2RoleCreds ec2Seed none] ++ Call.assumeRole rejectedElevation :: [] ∧
      rejectedElevation.err ≠ none ∧
      (([] : List Call) = [] ∧ (ResolveRoleChain rejectingWorld backupInput).err ≠ none ∧
        (ResolveRoleChain rejectingWorld backupInput).accessKey = "" ∧
        (ResolveRoleChain rejectingWorld backupInput).secretAccessKey = "" ∧
        (ResolveRoleChain rejectingWorld backupInput).sessionToken = "") :=
  ⟨by decide, by decide,
    C3_failed_elevation_aborts rejectingWorld backupInput [Call.ec2RoleCreds ec2Seed none] []
      rejectedElevation (by decide) (by decide)⟩

/-! ## The result of a successful run -/

theorem elevations_append (a b : List Call) :
    elevations (a ++ b) = elevations a ++ elevations b := by
  induction a with
  | nil => rfl
  | cons c a ih => cases c <;> simp [elevations, ih]

theorem loop_result_last (w : World) (chain : List String) (s : State)
    (hs : ∀ e, (elevations s.calls).getLast? = some e → s.prior = e.creds) :
    (ResolveRoleChain.loop w chain s).err = none →
      ∀ e, (elevations (ResolveRoleChain.loop w chain s).calls).getLast? = some e →
        (ResolveRoleChain.loop w chain s).triple = e.creds.triple := by
  refine loop_induction w
    (fun s => ∀ e, (elevations s.calls).getLast? = some e → s.prior = e.creds)
    (fun r => r.err = none → ∀ e, (elevations r.calls).getLast? = some e →
      r.triple = e.creds.triple) ?_ ?_ ?_ ?_ chain s hs
  · intro s hs _ e he
    have := hs e he
    simp [State.done, Result.triple, Value.triple, this]
  · intro s link _ _ _ h
    simp [State.fail, resolveErr, errorsWrap] at h
  · intro s link err _ _ _ h
    simp [State.fail, resolveErr, errorsWrap] at h
  · intro s link _ _ _ e he
    simp only [stateAfter, elevations_append, elevations, List.getLast?_append,
      List.getLast?_singleton, Option.or_some, Option.some.injEq] at he
    simp [stateAfter, he]

/-- C7: when `ResolveRoleChain` succeeds after at least one elevation call, the
triple it returns is the triple returned by the last elevation call it made. -/
theorem C7_result_is_last_elevation (w : World) (input : ResolveRoleChainInput)
    (e : Elevation)
    (hlast : (elevations (ResolveRoleChain w input).calls).getLast? = some e)
    (hok : (ResolveRoleChain w input).err = none) :
    (ResolveRoleChain w input).accessKey = e.creds.AccessKeyID ∧
      (ResolveRoleChain w input).secretAccessKey = e.creds.SecretAccessKey ∧
      (ResolveRoleChain w input).sessionToken = e.creds.SessionToken := by
  have key : (ResolveRoleChain w input).triple = e.creds.triple := by
    rcases ResolveRoleChain_cases w input with
      ⟨_, h⟩ | ⟨first, rest, _, ⟨_, e0, _, ⟨err, _, h⟩ | ⟨he, h⟩⟩ | ⟨_, _, h⟩ |
        ⟨_, _, _, ⟨err, _, h⟩ | ⟨_, h⟩⟩ | ⟨_, _, _, ⟨err, _, h⟩ | ⟨_, h⟩⟩ | ⟨_, _, _, _, h⟩⟩
    · rw [h] at hok; simp [State.fail] at hok
    · rw [h] at hok; simp [State.fail, errorsWrap] at hok
    · rw [h] at hok hlast ⊢
      refine loop_result_last w _ _ ?_ hok e hlast
      intro e' he'
      simp only [elevations, List.getLast?_singleton, Option.some.injEq] at he'
      simp [he']
    · rw [h] at hok hlast ⊢
      exact loop_result_last w _ _ (by intro e' he'; simp [elevations] at he') hok e hlast
    · rw [h] at hok; simp [State.fail, resolveErr, errorsWrap] at hok
    · rw [h] at hok hlast ⊢
      exact loop_result_last w _ _ (by intro e' he'; simp [elevations] at he') hok e hlast
    · rw [h] at hok; simp [State.fail, resolveErr, errorsWrap] at hok
    · rw [h] at hok hlast ⊢
      exact loop_result_last w _ _ (by intro e' he'; simp [elevations] at he') hok e hlast
    · rw [h] at hok; simp [State.fail] at hok
  simp only [Result.triple, Value.triple, Prod.mk.injEq] at key
  exact key

/-- C7 (witness): the chain `["instance", "arn:aws:iam::123456789012:role/backup"]`
in the sample world; the result is the output of the single elevation to the
backup role. -/
theorem C7_result_is_last_elevation_witness :
    elevations (ResolveRoleChain sampleWorld backupInput).calls = [backupElevation] ∧
      backupElevation.arn = roleBackup ∧
      (ResolveRoleChain sampleWorld backupInput).err = none ∧
      ((ResolveRoleChain sampleWorld backupInput).accessKey = backupElevation.creds.AccessKeyID ∧
        (ResolveRoleChain sampleWorld backupInput).secretAccessKey =
          backupElevation.creds.SecretAccessKey ∧
        (ResolveRoleChain sampleWorld backupInput).sessionToken =
          backupElevation.creds.SessionToken) :=
  ⟨by decide, by decide, by decide,
    C7_result_is_last_elevation sampleWorld backupInput backupElevation (by decide) (by decide)⟩

/-! ## Validation of the first link, and chains that are a single alias -/

/-- C9: `ResolveRoleChain` returns an error and makes no seed or elevation call
when the chain is empty, and also, for an input without static credentials, when
the first link is neither a role identifier nor one of the aliases `instance`
and `env-triple`. -/
theorem C9_invalid_head_fails_without_calls (w : World) (input : ResolveRoleChainInput) :
    (input.Chain = [] →
      (ResolveRoleChain w input).err ≠ none ∧ (ResolveRoleChain w input).calls = []) ∧
    (∀ first rest, input.Chain = first :: rest → ¬ input.hasStaticCreds →
      IsARN first = false → first ≠ InstanceRoleChainAlias → first ≠ EnvTempRoleChainAlias →
      (ResolveRoleChain w input).err ≠ none ∧ (ResolveRoleChain w input).calls = []) := by
  constructor
  · intro hc
    simp [ResolveRoleChain, hc, State.fail]
  · intro first rest hc hs ha h1 h2
    have hs' : ¬ (input.AccessKey ≠ "" ∧ input.SecretAccessKey ≠ "") := hs
    simp only [ResolveRoleChain, hc, hs', ha, h1, h2]
    simp [State.fail]

/-- C9 (witness): the empty chain, and a chain that starts with `laptop`. -/
theorem C9_invalid_head_fails_without_calls_witness :
    ((ResolveRoleChain sampleWorld {}).err ≠ none ∧
      (ResolveRoleChain sampleWorld {}).calls = []) ∧
    ((ResolveRoleChain sampleWorld unknownAliasInput).err ≠ none ∧
      (ResolveRoleChain sampleWorld unknownAliasInput).calls = []) :=
  ⟨(C9_invalid_head_fails_without_calls sampleWorld {}).1 rfl,
    (C9_invalid_head_fails_without_calls sampleWorld unknownAliasInput).2 "laptop" [roleA] rfl
      (by decide) (by decide) (by decide) (by decide)⟩

/-- C8: for an input without static credentials whose chain is a single
recognized alias, `ResolveRoleChain` makes no elevation call, and when the seed
call for the alias succeeds it returns the seed credentials unchanged with a nil
error. -/
theorem C8_single_alias_returns_seed (w : World) (input : ResolveRoleChainInput)
    (hs : ¬ input.hasStaticCreds) :
    (input.Chain = [EnvTempRoleChainAlias] →
      elevations (ResolveRoleChain w input).calls = [] ∧
      (∀ creds, w.envCredentialsGet = (creds, none) →
        (ResolveRoleChain w input).calls = [Call.envCreds creds none] ∧
        (ResolveRoleChain w input).err = none ∧
        (ResolveRoleChain w input).accessKey = creds.AccessKeyID ∧
        (ResolveRoleChain w input).secretAccessKey = creds.SecretAccessKey ∧
        (ResolveRoleChain w input).sessionToken = creds.SessionToken)) ∧
    (input.Chain = [InstanceRoleChainAlias] →
      elevations (ResolveRoleChain w input).calls = [] ∧
      (∀ creds, GetEC2RoleCreds w = (creds, none) →
        (ResolveRoleChain w input).calls = [Call.ec2RoleCreds creds none] ∧
        (ResolveRoleChain w input).err = none ∧
        (ResolveRoleChain w input).accessKey = creds.AccessKeyID ∧
        (ResolveRoleChain w input).secretAccessKey = creds.SecretAccessKey ∧
        (ResolveRoleChain w input).sessionToken = creds.SessionToken)) := by
  have hs' : ¬ (input.AccessKey ≠ "" ∧ input.SecretAccessKey ≠ "") := hs
  have ha1 : IsARN EnvTempRoleChainAlias = false := by decide
  have ha2 : IsARN InstanceRoleChainAlias = false := by decide
  have hne : InstanceRoleChainAlias ≠ EnvTempRoleChainAlias := by decide
  constructor
  · intro hc
    constructor
    · rcases hg : w.envCredentialsGet with ⟨creds, _ | err⟩ <;>
        simp [ResolveRoleChain, hc, hs', ha1, hg, State.fail, State.done, loop_nil, elevations]
    · intro creds hg
      simp [ResolveRoleChain, hc, hs', ha1, hg, State.done, loop_nil]
  · intro hc
    constructor
    · rcases hg : GetEC2RoleCreds w with ⟨creds, _ | err⟩ <;>
        simp [ResolveRoleChain, hc, hs', ha2, hne, hg, State.fail, State.done, loop_nil,
          elevations]
    · intro creds hg
      simp [ResolveRoleChain, hc, hs', ha2, hne, hg, State.done, loop_nil]

/-- C8 (witness): the chain `["env-triple"]` in the sample world. -/
theorem C8_single_alias_returns_seed_witness :
    elevations (ResolveRoleChain sampleWorld envOnlyInput).calls = [] ∧
      (ResolveRoleChain sampleWorld envOnlyInput).calls = [Call.envCreds envSeed none] ∧
      (ResolveRoleChain sampleWorld envOnlyInput).err = none ∧
      (ResolveRoleChain sampleWorld envOnlyInput).accessKey = envSeed.AccessKeyID ∧
      (ResolveRoleChain sampleWorld envOnlyInput).secretAccessKey = envSeed.SecretAccessKey ∧
      (ResolveRoleChain sampleWorld envOnlyInput).sessionToken = envSeed.SessionToken :=
  ⟨((C8_single_alias_returns_seed sampleWorld envOnlyInput (by decide)).1 rfl).1,
    ((C8_single_alias_returns_seed sampleWorld envOnlyInput (by decide)).1 rfl).2 envSeed rfl⟩

/-! ## Static credentials: the first link is assumed twice -/

/-- C1 (the code at the failing input): with a static key pair, an MFA device
and a chain of one role, `ResolveRoleChain` makes two elevation calls to that
role, and the MFA serial and code are part of both `AssumeRole` requests. -/
theorem C1_mfa_sent_on_two_calls_with_static_creds :
    (elevations (ResolveRoleChain sampleWorld staticMfaInput).calls).map
        (fun e => (e.arn, e.request.bind (fun p => p.SerialNumber),
          e.request.bind (fun p => p.TokenCode))) =
      [(roleA, some "arn:aws:iam::123456789012:mfa/me", some "123456"),
       (roleA, some "arn:aws:iam::123456789012:mfa/me", some "123456")] := by
  decide

/-- C5 (the code at the failing input): with a static key pair and a chain of
one role, `ResolveRoleChain` makes two elevation calls, both to `chain[0]`: the
first with the static pair as basis, the second with the result of the first. -/
theorem C5_first_link_assumed_twice_with_static_creds :
    (elevations (ResolveRoleChain sampleWorld staticInput).calls).map
        (fun e => (e.arn, e.config.Credentials)) =
      [(roleA, Credentials.static "AKIAKEY" "SECRET" ""),
       (roleA, Credentials.static "ASIAKEY" ("secret of " ++ roleA) "T0")] := by
  decide

/-! ## A link that is not a role identifier -/

theorem loop_err_of_bad_link (w : World) (chain : List String) :
    ∀ s, (∃ l ∈ chain, l ≠ "" ∧ IsARN l = false) →
      (ResolveRoleChain.loop w chain s).err ≠ none := by
  induction chain with
  | nil => intro s h; simp at h
  | cons link chain ih =>
    intro s hbad
    rcases loop_cases w link chain s with ⟨hl, h⟩ | ⟨_, _, h⟩ | ⟨_, err, _, h⟩ | ⟨ha, _, h⟩
    · rw [h]
      apply ih
      rcases hbad with ⟨l, hl', hb, hn⟩
      rcases List.mem_cons.1 hl' with rfl | hm
      · exact absurd hl hb
      · exact ⟨l, hm, hb, hn⟩
    · rw [h]; simp [State.fail, resolveErr, errorsWrap]
    · rw [h]; simp [State.fail, resolveErr, errorsWrap]
    · rw [h]
      apply ih
      rcases hbad with ⟨l, hl', hb, hn⟩
      rcases List.mem_cons.1 hl' with rfl | hm
      · rw [ha] at hn; exact absurd hn (by decide)
      · exact ⟨l, hm, hb, hn⟩

/-- C2 (counterexample): in the chain `[role, "laptop"]` the second link is
neither blank nor a role identifier; `ResolveRoleChain` returns an error, but
only after an elevation call to the first link. -/
theorem C2_counterexample :
    badSecondInput.Chain = [roleA, "laptop"] ∧ "laptop" ≠ "" ∧ IsARN "laptop" = false ∧
      (ResolveRoleChain sampleWorld badSecondInput).err ≠ none ∧
      (elevations (ResolveRoleChain sampleWorld badSecondInput).calls).map (fun e => e.arn) =
        [roleA] := by
  decide

/-- C2 (amended): for every chain of length at least two whose second link is
neither blank nor a role identifier, `ResolveRoleChain` returns an error; and it
makes no elevation call at all when the input has no static credentials and the
first link is not a role identifier. -/
theorem C2_bad_second_link_fails (w : World) (input : ResolveRoleChainInput)
    (first second : String) (rest : List String)
    (hc : input.Chain = first :: second :: rest)
    (hb : second ≠ "") (ha : IsARN second = false) :
    (ResolveRoleChain w input).err ≠ none ∧
      (¬ input.hasStaticCreds → IsARN first = false →
        elevations (ResolveRoleChain w input).calls = []) := by
  have hbad1 : ∃ l ∈ second :: rest, l ≠ "" ∧ IsARN l = false :=
    ⟨second, List.mem_cons_self _ _, hb, ha⟩
  have hbad2 : ∃ l ∈ first :: second :: rest, l ≠ "" ∧ IsARN l = false :=
    ⟨second, by simp, hb, ha⟩
  rcases ResolveRoleChain_cases w input with
    ⟨hn, _⟩ | ⟨f, r, hc', ⟨hst, e0, _, ⟨err, _, h⟩ | ⟨_, h⟩⟩ | ⟨_, harn, h⟩ |
      ⟨_, _, _, ⟨err, _, h⟩ | ⟨_, h⟩⟩ | ⟨_, _, _, ⟨err, _, h⟩ | ⟨_, h⟩⟩ | ⟨_, _, _, _, h⟩⟩
  · rw [hc] at hn; exact absurd hn (by simp)
  all_goals
    rw [hc] at hc'
    obtain ⟨rfl, rfl⟩ := List.cons.inj hc'
  · refine ⟨by rw [h]; simp [State.fail, errorsWrap], fun hns => absurd hst hns⟩
  · refine ⟨by rw [h]; exact loop_err_of_bad_link w _ _ hbad2, fun hns => absurd hst hns⟩
  · refine ⟨by rw [h]; exact loop_err_of_bad_link w _ _ hbad2, fun _ hf => ?_⟩
    rw [harn] at hf; exact absurd hf (by decide)
  · rw [h]; exact ⟨by simp [State.fail, resolveErr, errorsWrap], fun _ _ => by simp [State.fail, elevations]⟩
  · rw [h, loop_not_arn w _ _ _ hb ha]
    exact ⟨by simp [State.fail, resolveErr, errorsWrap], fun _ _ => by simp [State.fail, elevations]⟩
  · rw [h]; exact ⟨by simp [State.fail, resolveErr, errorsWrap], fun _ _ => by simp [State.fail, elevations]⟩
  · rw [h, loop_not_arn w _ _ _ hb ha]
    exact ⟨by simp [State.fail, resolveErr, errorsWrap], fun _ _ => by simp [State.fail, elevations]⟩
  · rw [h]; exact ⟨by simp [State.fail], fun _ _ => by simp [State.fail, elevations]⟩

/-- C2 (witness): the chain `["instance", "laptop", role]` in the sample world. -/
theorem C2_bad_second_link_fails_witness :
    (InstanceRoleChainAlias :: "laptop" :: [roleA] =
        InstanceRoleChainAlias :: "laptop" :: [roleA]) ∧
      "laptop" ≠ "" ∧ IsARN "laptop" = false ∧
      (ResolveRoleChain sampleWorld { Chain := [InstanceRoleChainAlias, "laptop", roleA] }).err
        ≠ none ∧
      elevations
        (ResolveRoleChain sampleWorld { Chain := [InstanceRoleChainAlias, "laptop", roleA] }).calls
        = [] :=
  ⟨rfl, by decide, by decide,
    (C2_bad_second_link_fails sampleWorld { Chain := [InstanceRoleChainAlias, "laptop", roleA] }
      InstanceRoleChainAlias "laptop" [roleA] rfl (by decide) (by decide)).1,
    (C2_bad_second_link_fails sampleWorld { Chain := [InstanceRoleChainAlias, "laptop", roleA] }
      InstanceRoleChainAlias "laptop" [roleA] rfl (by decide) (by decide)).2
      (by decide) (by decide)⟩

/-! ## What an elevation call records -/

theorem callAssumeRole_arn (w : World) (hist : List Call) (arn : String)
    (input : ResolveRoleChainInput) (config : Config) (name : String) :
    (callAssumeRole w hist arn input config name).arn = arn ∧
      (callAssumeRole w hist arn input config name).config = config := by
  rcases hg : w.AssumeRole hist config (assumeRoleParams arn input name) with ⟨resp, _ | err⟩ <;>
    simp [callAssumeRole, hg]

theorem GetAssumeRoleCreds_arn (w : World) (hist : List Call) (arn : String)
    (input : ResolveRoleChainInput) (config : Config) :
    (GetAssumeRoleCreds w hist arn input config).arn = arn ∧
      (GetAssumeRoleCreds w hist arn input config).config = config := by
  rcases hsess : w.newSession hist config with _ | e
  · by_cases hn : input.SessionName = ""
    · rcases hr : w.RandHexString hist 2 with ⟨randStr, _ | err⟩ <;>
        simp [GetAssumeRoleCreds, hsess, hn, hr, callAssumeRole_arn]
    · simp [GetAssumeRoleCreds, hsess, hn, callAssumeRole_arn]
  · simp [GetAssumeRoleCreds, hsess]

theorem callAssumeRole_answered (w : World) (hist : List Call) (arn : String)
    (input : ResolveRoleChainInput) (config : Config) (name : String)
    (herr : (callAssumeRole w hist arn input config name).err = none) :
    (w.AssumeRole hist config (assumeRoleParams arn input name)).2 = none := by
  rcases hg : w.AssumeRole hist config (assumeRoleParams arn input name) with ⟨resp, _ | err⟩
  · rfl
  · simp [callAssumeRole, hg, errorsWithStack] at herr

/-- An elevation call that sent its request and returned a nil error had its
request answered without an error by the STS client. -/
theorem GetAssumeRoleCreds_answered (w : World) (hist : List Call) (arn : String)
    (input : ResolveRoleChainInput) (config : Config)
    (hreq : (GetAssumeRoleCreds w hist arn input config).request ≠ none)
    (herr : (GetAssumeRoleCreds w hist arn input config).err = none) :
    ∃ name, (w.AssumeRole hist config (assumeRoleParams arn input name)).2 = none := by
  rcases hsess : w.newSession hist config with _ | e
  · by_cases hn : input.SessionName = ""
    · rcases hr : w.RandHexString hist 2 with ⟨randStr, _ | err⟩
      · refine ⟨"cage.aws.v1.sts.GetAssumeRoleCreds." ++ randStr,
          callAssumeRole_answered _ _ _ _ _ _ ?_⟩
        simpa [GetAssumeRoleCreds, hsess, hn, hr] using herr
      · simp [GetAssumeRoleCreds, hsess, hn, hr] at hreq
    · exact ⟨input.SessionName, callAssumeRole_answered _ _ _ _ _ _
        (by simpa [GetAssumeRoleCreds, hsess, hn] using herr)⟩
  · simp [GetAssumeRoleCreds, hsess] at hreq

/-! ## One call per link -/

theorem loop_one_call_per_role (w : World) (roles : List String) :
    ∀ s, (∀ r ∈ roles, IsARN r = true) → Clean (ResolveRoleChain.loop w roles s).calls →
      (ResolveRoleChain.loop w roles s).err = none ∧
      ∃ es : List Elevation,
        (ResolveRoleChain.loop w roles s).calls = s.calls ++ es.map Call.assumeRole ∧
        es.map (fun e => e.arn) = roles := by
  induction roles with
  | nil =>
    intro s _ _
    exact ⟨rfl, [], by simp [loop_nil, State.done], rfl⟩
  | cons link roles ih =>
    intro s hr hclean
    have ha : IsARN link = true := hr link (List.mem_cons_self _ _)
    cases he : (elevationAt w s link).err with
    | some err =>
      rw [loop_arn_err w link roles s ha err he] at hclean
      have := hclean (Call.assumeRole (elevationAt w s link)) (by simp [State.fail])
      rw [Call.err, he] at this
      exact absurd this (by simp)
    | none =>
      rw [loop_arn_ok w link roles s ha he] at hclean ⊢
      obtain ⟨herr, es, hcalls, harn⟩ :=
        ih (stateAfter w s link) (fun r hm => hr r (List.mem_cons_of_mem _ hm)) hclean
      refine ⟨herr, elevationAt w s link :: es, ?_, ?_⟩
      · rw [hcalls]; simp [stateAfter]
      · simp only [List.map_cons, harn, List.cons.injEq, and_true]
        exact (GetAssumeRoleCreds_arn w _ _ _ _).1

theorem elevations_map (es : List Elevation) : elevations (es.map Call.assumeRole) = es := by
  induction es with
  | nil => rfl
  | cons e es ih => simp [elevations, ih]

theorem seeds_map (es : List Elevation) : seeds (es.map Call.assumeRole) = [] := by
  induction es with
  | nil => rfl
  | cons e es ih => simp [seeds, ih]

/-- C4: for every non-empty chain whose first link is a recognized alias and
whose remaining links are all role identifiers, a resolution in which every
external call succeeds makes exactly one seed-acquisition call, for the alias,
and then exactly one elevation call per role-identifier link, in chain order:
`1 + number of role links` calls in all, and it succeeds.  The STS client is
the SDK's, which validates the `RoleArn` of a request (`hvalid`).  That every
external call succeeded is read off the run: each call made returned a nil error
(`hclean`) and each elevation call got as far as sending its request (`hsent`),
so that neither session creation nor the random source failed. -/
theorem C4_one_call_per_link (w : World) (input : ResolveRoleChainInput)
    (head : String) (roles : List String)
    (hc : input.Chain = head :: roles)
    (hhead : head = InstanceRoleChainAlias ∨ head = EnvTempRoleChainAlias)
    (hroles : ∀ r ∈ roles, IsARN r = true)
    (hvalid : w.ValidatesRoleArn)
    (hclean : Clean (ResolveRoleChain w input).calls)
    (hsent : ∀ e ∈ elevations (ResolveRoleChain w input).calls, e.request ≠ none) :
    (ResolveRoleChain w input).err = none ∧
      (seeds (ResolveRoleChain w input).calls).length = 1 ∧
      (elevations (ResolveRoleChain w input).calls).map (fun e => e.arn) = roles ∧
      (ResolveRoleChain w input).calls.map Call.link = head :: roles ∧
      (ResolveRoleChain w input).calls.length = 1 + roles.length := by
  have hnarn : IsARN head = false := by
    rcases hhead with rfl | rfl <;> decide
  have hne : head ≠ "" := by
    rcases hhead with rfl | rfl <;> decide
  have hshort : head.utf8ByteSize < 20 := by
    rcases hhead with rfl | rfl <;> decide
  have finish : ∀ (seed : Call) (s : State), s.calls = [seed] → seeds [seed] = [seed] →
      seed.link = head →
      ResolveRoleChain w input = ResolveRoleChain.loop w roles s →
      (ResolveRoleChain w input).err = none ∧
      (seeds (ResolveRoleChain w input).calls).length = 1 ∧
      (elevations (ResolveRoleChain w input).calls).map (fun e => e.arn) = roles ∧
      (ResolveRoleChain w input).calls.map Call.link = head :: roles ∧
      (ResolveRoleChain w input).calls.length = 1 + roles.length := by
    intro seed s hsc hseed hlink h
    rw [h] at hclean
    obtain ⟨herr, es, hcalls, harn⟩ := loop_one_call_per_role w roles s hroles hclean
    rw [h, hcalls, hsc]
    have hseeds : seeds ([seed] ++ es.map Call.assumeRole) = [seed] := by
      cases seed with
      | assumeRole e => simp [seeds] at hseed
      | envCreds c e => simp [seeds, seeds_map]
      | ec2RoleCreds c e => simp [seeds, seeds_map]
    refine ⟨herr, by rw [hseeds]; rfl, ?_, ?_, ?_⟩
    · rw [elevations_append, elevations_map]
      cases seed with
      | assumeRole e => simp [seeds] at hseed
      | envCreds c e => simpa [elevations] using harn
      | ec2RoleCreds c e => simpa [elevations] using harn
    · have : (es.map Call.assumeRole).map Call.link = es.map (fun e => e.arn) := by
        simp [List.map_map, Function.comp_def, Call.link]
      simp [this, harn, hlink]
    · have hl : es.length = roles.length := by rw [← harn]; simp
      simp [hl]; omega
  rcases ResolveRoleChain_cases w input with
    ⟨hn, _⟩ | ⟨f, r, hc', ⟨_, e, he, ⟨err, herr, h⟩ | ⟨herr, h⟩⟩ | ⟨_, harn, _⟩ |
      ⟨_, _, h1, ⟨err, he, h⟩ | ⟨_, h⟩⟩ | ⟨_, _, h2, ⟨err, he, h⟩ | ⟨hg, h⟩⟩ | ⟨_, _, h1, h2, _⟩⟩
  · rw [hc] at hn; exact absurd hn (by simp)
  all_goals
    rw [hc] at hc'
    obtain ⟨rfl, rfl⟩ := List.cons.inj hc'
  · rw [h] at hclean
    have := hclean (Call.assumeRole e) (by simp [State.fail])
    rw [Call.err, herr] at this
    exact absurd this (by simp)
  · rw [h, loop_not_arn w head roles _ hne hnarn] at hsent
    have hreq : e.request ≠ none := hsent e (by simp [State.fail, elevations])
    rw [he] at hreq herr
    obtain ⟨name, hans⟩ := GetAssumeRoleCreds_answered w [] head input _ hreq herr
    exact absurd hans (hvalid [] _ (assumeRoleParams head input name) hshort)
  · rw [hnarn] at harn; exact absurd harn (by decide)
  · rw [h] at hclean
    have := hclean _ (List.mem_singleton.2 rfl)
    exact absurd this (by simp [Call.err])
  · exact finish (Call.envCreds w.envCredentialsGet.1 none) _ rfl rfl h1.symm h
  · rw [h] at hclean
    have := hclean _ (List.mem_singleton.2 rfl)
    exact absurd this (by simp [Call.err])
  · exact finish (Call.ec2RoleCreds (GetEC2RoleCreds w).1 none) _ rfl rfl h2.symm h
  · rcases hhead with h | h
    · exact absurd h h2
    · exact absurd h h1

/-- C4 (witness): the instance alias followed by the backup role, in the sample
world with a validating STS client. -/
theorem C4_one_call_per_link_witness :
    backupInput.Chain = InstanceRoleChainAlias :: [roleBackup] ∧
      (∀ r ∈ [roleBackup], IsARN r = true) ∧
      validatingWorld.ValidatesRoleArn ∧
      Clean (ResolveRoleChain validatingWorld backupInput).calls ∧
      (∀ e ∈ elevations (ResolveRoleChain validatingWorld backupInput).calls,
        e.request ≠ none) ∧
      ((ResolveRoleChain validatingWorld backupInput).err = none ∧
        (seeds (ResolveRoleChain validatingWorld backupInput).calls).length = 1 ∧
        (elevations (ResolveRoleChain validatingWorld backupInput).calls).map
          (fun e => e.arn) = [roleBackup] ∧
        (ResolveRoleChain validatingWorld backupInput).calls.map Call.link =
          InstanceRoleChainAlias :: [roleBackup] ∧
        (ResolveRoleChain validatingWorld backupInput).calls.length =
          1 + [roleBackup].length) :=
  have hvalid : validatingWorld.ValidatesRoleArn := by
    intro hist config params hlt
    simp [validatingWorld, hlt]
  ⟨rfl, by decide, hvalid, by unfold Clean; decide, by decide,
    C4_one_call_per_link validatingWorld backupInput InstanceRoleChainAlias [roleBackup]
      rfl (Or.inl rfl) (by decide) hvalid (by unfold Clean; decide) (by decide)⟩

/-! ## Threading of credentials -/

theorem loop_chained (w : World) (chain : List String) (s : State)
    (hs : List.Chain' Follows s.calls ∧ ∀ c ∈ s.calls.getLast?, c.creds = s.prior) :
    List.Chain' Follows (ResolveRoleChain.loop w chain s).calls := by
  have hext : ∀ (s : State) (link : String),
      (List.Chain' Follows s.calls ∧ ∀ c ∈ s.calls.getLast?, c.creds = s.prior) →
      List.Chain' Follows (s.calls ++ [Call.assumeRole (elevationAt w s link)]) := by
    intro s link hs
    rw [List.chain'_append]
    refine ⟨hs.1, List.chain'_singleton _, ?_⟩
    intro x hx y hy e he
    simp only [List.head?_cons, Option.mem_def, Option.some.injEq] at hy
    subst hy
    obtain rfl := Call.assumeRole.inj he
    rw [hs.2 x hx]
    exact congrArg Config.Credentials (GetAssumeRoleCreds_arn w _ _ _ _).2
  refine loop_induction w
    (fun s => List.Chain' Follows s.calls ∧ ∀ c ∈ s.calls.getLast?, c.creds = s.prior)
    (fun r => List.Chain' Follows r.calls) ?_ ?_ ?_ ?_ chain s hs
  · intro s hs; exact hs.1
  · intro s link hs _ _; exact hs.1
  · intro s link err hs _ _; exact hext s link hs
  · intro s link hs _ _
    refine ⟨hext s link hs, ?_⟩
    intro c hc
    simp only [stateAfter, List.getLast?_append, List.getLast?_singleton, Option.or_some,
      Option.mem_def, Option.some.injEq] at hc
    subst hc
    rfl

theorem ResolveRoleChain_chained (w : World) (input : ResolveRoleChainInput) :
    List.Chain' Follows (ResolveRoleChain w input).calls := by
  rcases ResolveRoleChain_cases w input with
    ⟨_, h⟩ | ⟨first, rest, _, ⟨_, e, _, ⟨err, _, h⟩ | ⟨he, h⟩⟩ | ⟨_, _, h⟩ |
      ⟨_, _, _, ⟨err, _, h⟩ | ⟨_, h⟩⟩ | ⟨_, _, _, ⟨err, _, h⟩ | ⟨_, h⟩⟩ | ⟨_, _, _, _, h⟩⟩
  · rw [h]; exact List.chain'_nil
  · rw [h]; exact List.chain'_singleton _
  · rw [h]; apply loop_chained
    refine ⟨List.chain'_singleton _, ?_⟩
    intro c hc
    simp only [List.getLast?_singleton, Option.mem_def, Option.some.injEq] at hc
    subst hc; rfl
  · rw [h]; apply loop_chained
    exact ⟨List.chain'_nil, by intro c hc; simp at hc⟩
  · rw [h]; exact List.chain'_singleton _
  · rw [h]; apply loop_chained
    refine ⟨List.chain'_singleton _, ?_⟩
    intro c hc
    simp only [List.getLast?_singleton, Option.mem_def, Option.some.injEq] at hc
    subst hc; rfl
  · rw [h]; exact List.chain'_singleton _
  · rw [h]; apply loop_chained
    refine ⟨List.chain'_singleton _, ?_⟩
    intro c hc
    simp only [List.getLast?_singleton, Option.mem_def, Option.some.injEq] at hc
    subst hc; rfl
  · rw [h]; exact List.chain'_nil

/-- C6 (counterexample): the STS answers the first elevation with an empty
access key id next to a secret and a token; the second elevation is then made
with anonymous credentials, not with the triple the first one returned. -/
theorem C6_counterexample :
    (elevations (ResolveRoleChain blankKeyWorld twoRolesInput).calls).map
        (fun e => (e.arn, e.config.Credentials, e.creds.triple, e.err)) =
      [(roleA, Credentials.anonymous, ("", "SECRET", "TOKEN"), none),
       (roleBackup, Credentials.anonymous, ("", "SECRET", "TOKEN"), none)] ∧
    Credentials.anonymous ≠ Credentials.static "" "SECRET" "TOKEN" := by
  decide

/-- C6 (amended): whenever an elevation call immediately follows another call of
the run (the preceding elevation call, or the seed call after an alias), its
basis is the static triple that call returned if the access key id of that
triple is not empty, and anonymous credentials if it is empty. -/
theorem C6_basis_is_previous_result (w : World) (input : ResolveRoleChainInput)
    (pre post : List Call) (c : Call) (e : Elevation)
    (hcalls : (ResolveRoleChain w input).calls = pre ++ c :: Call.assumeRole e :: post) :
    (c.creds.AccessKeyID ≠ "" →
      e.config.Credentials =
        Credentials.static c.creds.AccessKeyID c.creds.SecretAccessKey c.creds.SessionToken) ∧
    (c.creds.AccessKeyID = "" → e.config.Credentials = Credentials.anonymous) := by
  have h := ResolveRoleChain_chained w input
  rw [hcalls, List.chain'_split, List.chain'_cons] at h
  have hf : e.config.Credentials = priorCredentials c.creds := h.2.1 e rfl
  rw [hf]
  constructor
  · intro hne; simp [priorCredentials, hne]
  · intro heq; simp [priorCredentials, heq]

/-- C6 (witness): the second elevation of the chain `["instance", backup, a]` in
the sample world. -/
theorem C6_basis_is_previous_result_witness :
    (ResolveRoleChain sampleWorld threeLinkInput).calls =
        [Call.ec2RoleCreds ec2Seed none] ++
          Call.assumeRole backupElevation :: Call.assumeRole secondElevation :: [] ∧
      (Call.assumeRole backupElevation).creds.AccessKeyID ≠ "" ∧
      secondElevation.config.Credentials =
        Credentials.static (Call.assumeRole backupElevation).creds.AccessKeyID
          (Call.assumeRole backupElevation).creds.SecretAccessKey
          (Call.assumeRole backupElevation).creds.SessionToken :=
  ⟨by decide, by decide,
    (C6_basis_is_previous_result sampleWorld threeLinkInput [Call.ec2RoleCreds ec2Seed none] []
      (Call.assumeRole backupElevation) secondElevation (by decide)).1 (by decide)⟩

/-! ## Blank links -/

theorem GetAssumeRoleCreds_withChain (w : World) (hist : List Call) (arn : String)
    (input : ResolveRoleChainInput) (chain : List String) (config : Config) :
    GetAssumeRoleCreds w hist arn (withChain input chain) config =
      GetAssumeRoleCreds w hist arn input config := rfl

theorem elevationAt_sameUpToChain (w : World) (a b : State) (h : a.SameUpToChain b)
    (link : String) : elevationAt w a link = elevationAt w b link := by
  obtain ⟨hp, hc, chain, hi⟩ := h
  unfold elevationAt
  rw [hp, hc, hi]
  rfl

theorem sameOutcome_fail (a b : State) (ea eb : Error) (h : a.calls = b.calls) :
    (a.fail (some ea)).SameOutcome (b.fail (some eb)) :=
  ⟨h, by simp [State.fail, Result.triple], by simp [State.fail]⟩

theorem loop_sameUpToChain (w : World) (chain : List String) :
    ∀ a b : State, a.SameUpToChain b →
      (ResolveRoleChain.loop w chain a).SameOutcome (ResolveRoleChain.loop w chain b) := by
  induction chain with
  | nil =>
    intro a b h
    obtain ⟨hp, hc, _⟩ := h
    exact ⟨hc, by simp [loop_nil, State.done, Result.triple, hp], by simp [loop_nil, State.done]⟩
  | cons link chain ih =>
    intro a b h
    by_cases hb : link = ""
    · subst hb
      rw [loop_blank, loop_blank]
      exact ih a b h
    · cases ha : IsARN link with
      | false =>
        rw [loop_not_arn w link chain a hb ha, loop_not_arn w link chain b hb ha]
        exact ⟨h.2.1, by simp [State.fail, Result.triple],
          by simp [State.fail, resolveErr, errorsWrap]⟩
      | true =>
        have hel := elevationAt_sameUpToChain w a b h link
        cases he : (elevationAt w b link).err with
        | some err =>
          rw [loop_arn_err w link chain a ha err (hel ▸ he),
            loop_arn_err w link chain b ha err he]
          refine ⟨?_, by simp [State.fail, Result.triple],
            by simp [State.fail, resolveErr, errorsWrap]⟩
          simp [State.fail, hel, h.2.1]
        | none =>
          rw [loop_arn_ok w link chain a ha (hel ▸ he), loop_arn_ok w link chain b ha he]
          apply ih
          obtain ⟨_, hc, c, hi⟩ := h
          refine ⟨by simp [stateAfter, hel], by simp [stateAfter, hel, hc], c, ?_⟩
          simp [stateAfter, hi, withChain]

theorem loop_blank_insert (w : World) (post : List String) (pre : List String) :
    ∀ s, ResolveRoleChain.loop w (pre ++ "" :: post) s =
      ResolveRoleChain.loop w (pre ++ post) s := by
  induction pre with
  | nil => intro s; exact loop_blank w post s
  | cons link pre ih =>
    intro s
    rcases loop_cases w link (pre ++ "" :: post) s with
      ⟨hl, h⟩ | ⟨hb, ha, h⟩ | ⟨ha, err, he, h⟩ | ⟨ha, he, h⟩
    · subst hl
      simp only [List.cons_append]
      rw [loop_blank, loop_blank]; exact ih s
    · simp only [List.cons_append]
      rw [loop_not_arn w link _ s hb ha, loop_not_arn w link _ s hb ha]
    · simp only [List.cons_append]
      rw [loop_arn_err w link _ s ha err he, loop_arn_err w link _ s ha err he]
    · simp only [List.cons_append]
      rw [loop_arn_ok w link _ s ha he, loop_arn_ok w link _ s ha he]; exact ih _

theorem sameOutcome_loop_insert (w : World) (pre post : List String) (a b : State)
    (h : a.SameUpToChain b) :
    (ResolveRoleChain.loop w (pre ++ "" :: post) a).SameOutcome
      (ResolveRoleChain.loop w (pre ++ post) b) := by
  rw [loop_blank_insert]
  exact loop_sameUpToChain w _ a b h

theorem staticElevation_withChain (w : World) (input : ResolveRoleChainInput)
    (chain : List String) (first : String) :
    staticElevation w (withChain input chain) first = staticElevation w input first := rfl

/-! ### The ways into the loop, one by one -/

theorem resolve_static_err (w : World) (input : ResolveRoleChainInput) (first : String)
    (rest : List String) (hc : input.Chain = first :: rest) (hs : input.hasStaticCreds)
    (err : Error) (he : (staticElevation w input first).err = some err) :
    ResolveRoleChain w input =
      State.fail { input := input, prior := (staticElevation w input first).creds,
                   calls := [Call.assumeRole (staticElevation w input first)] }
        (some (Error.wrap err
          ("failed to assume role [" ++ first ++ "] using intiial static creds"))) := by
  have hs' : input.AccessKey ≠ "" ∧ input.SecretAccessKey ≠ "" := hs
  unfold staticElevation at he ⊢
  simp [ResolveRoleChain, hc, hs', he, errorsWrap]

theorem resolve_static_ok (w : World) (input : ResolveRoleChainInput) (first : String)
    (rest : List String) (hc : input.Chain = first :: rest) (hs : input.hasStaticCreds)
    (he : (staticElevation w input first).err = none) :
    ResolveRoleChain w input =
      ResolveRoleChain.loop w (first :: rest)
        { input := input, prior := (staticElevation w input first).creds,
          calls := [Call.assumeRole (staticElevation w input first)] } := by
  have hs' : input.AccessKey ≠ "" ∧ input.SecretAccessKey ≠ "" := hs
  unfold staticElevation at he ⊢
  simp [ResolveRoleChain, hc, hs', he]

theorem resolve_arn (w : World) (input : ResolveRoleChainInput) (first : String)
    (rest : List String) (hc : input.Chain = first :: rest) (hs : ¬ input.hasStaticCreds)
    (ha : IsARN first = true) :
    ResolveRoleChain w input = ResolveRoleChain.loop w (first :: rest) { input := input } := by
  have hs' : ¬ (input.AccessKey ≠ "" ∧ input.SecretAccessKey ≠ "") := hs
  simp only [ResolveRoleChain, hc, hs', ha]; simp

theorem resolve_env_err (w : World) (input : ResolveRoleChainInput)
    (rest : List String) (hc : input.Chain = EnvTempRoleChainAlias :: rest)
    (hs : ¬ input.hasStaticCreds) (creds : Value) (err : Error)
    (hg : w.envCredentialsGet = (creds, some err)) :
    ResolveRoleChain w input =
      State.fail { input := input, prior := creds,
                   calls := [Call.envCreds creds (some err)] }
        (some (Error.wrap err
          ("failed to resolve role chain (" ++ input.String ++ ") log [" ++
            ResolveRoleChainLog.String [] ++ "]"))) := by
  have hs' : ¬ (input.AccessKey ≠ "" ∧ input.SecretAccessKey ≠ "") := hs
  have ha : IsARN EnvTempRoleChainAlias = false := by decide
  simp [ResolveRoleChain, hc, hs', ha, hg, resolveErr, errorsWrap]

theorem resolve_env_ok (w : World) (input : ResolveRoleChainInput)
    (rest : List String) (hc : input.Chain = EnvTempRoleChainAlias :: rest)
    (hs : ¬ input.hasStaticCreds) (creds : Value)
    (hg : w.envCredentialsGet = (creds, none)) :
    ResolveRoleChain w input =
      ResolveRoleChain.loop w rest
        { input := input, prior := creds, log := ["seeded chain with env-triple creds"],
          calls := [Call.envCreds creds none] } := by
  have hs' : ¬ (input.AccessKey ≠ "" ∧ input.SecretAccessKey ≠ "") := hs
  have ha : IsARN EnvTempRoleChainAlias = false := by decide
  simp [ResolveRoleChain, hc, hs', ha, hg]

theorem resolve_instance_err (w : World) (input : ResolveRoleChainInput)
    (rest : List String) (hc : input.Chain = InstanceRoleChainAlias :: rest)
    (hs : ¬ input.hasStaticCreds) (creds : Value) (err : Error)
    (hg : GetEC2RoleCreds w = (creds, some err)) :
    ResolveRoleChain w input =
      State.fail { input := input, prior := creds,
                   calls := [Call.ec2RoleCreds creds (some err)] }
        (some (Error.wrap err
          ("failed to resolve role chain (" ++ input.String ++ ") log [" ++
            ResolveRoleChainLog.String [] ++ "]"))) := by
  have hs' : ¬ (input.AccessKey ≠ "" ∧ input.SecretAccessKey ≠ "") := hs
  have ha : IsARN InstanceRoleChainAlias = false := by decide
  have hne : InstanceRoleChainAlias ≠ EnvTempRoleChainAlias := by decide
  simp [ResolveRoleChain, hc, hs', ha, hne, hg, resolveErr, errorsWrap]

theorem resolve_instance_ok (w : World) (input : ResolveRoleChainInput)
    (rest : List String) (hc : input.Chain = InstanceRoleChainAlias :: rest)
    (hs : ¬ input.hasStaticCreds) (creds : Value)
    (hg : GetEC2RoleCreds w = (creds, none)) :
    ResolveRoleChain w input =
      ResolveRoleChain.loop w rest
        { input := input, prior := creds, log := ["seeded chain with instance role creds"],
          calls := [Call.ec2RoleCreds creds none] } := by
  have hs' : ¬ (input.AccessKey ≠ "" ∧ input.SecretAccessKey ≠ "") := hs
  have ha : IsARN InstanceRoleChainAlias = false := by decide
  have hne : InstanceRoleChainAlias ≠ EnvTempRoleChainAlias := by decide
  simp [ResolveRoleChain, hc, hs', ha, hne, hg]

theorem resolve_unknown (w : World) (input : ResolveRoleChainInput) (first : String)
    (rest : List String) (hc : input.Chain = first :: rest) (hs : ¬ input.hasStaticCreds)
    (ha : IsARN first = false) (h1 : first ≠ EnvTempRoleChainAlias)
    (h2 : first ≠ InstanceRoleChainAlias) :
    ResolveRoleChain w input =
      State.fail { input := input } (some (Error.new
        ("role chain first-link alias [" ++ first ++ "] is not recognized"))) := by
  have hs' : ¬ (input.AccessKey ≠ "" ∧ input.SecretAccessKey ≠ "") := hs
  simp only [ResolveRoleChain, hc, hs', ha, h1, h2]; simp

/-- Two runs whose chains have the same first link either both stop before the
loop, with the same calls made, or enter the loop at the same place in states
that differ at most in the chain of the input. -/
theorem ResolveRoleChain_pair (w : World) (input : ResolveRoleChainInput) (first : String)
    (rest1 rest2 : List String) :
    (ResolveRoleChain w (withChain input (first :: rest1))).SameOutcome
        (ResolveRoleChain w (withChain input (first :: rest2))) ∨
    ∃ a b : State, a.SameUpToChain b ∧
      ((ResolveRoleChain w (withChain input (first :: rest1)) =
            ResolveRoleChain.loop w rest1 a ∧
          ResolveRoleChain w (withChain input (first :: rest2)) =
            ResolveRoleChain.loop w rest2 b) ∨
        (ResolveRoleChain w (withChain input (first :: rest1)) =
            ResolveRoleChain.loop w (first :: rest1) a ∧
          ResolveRoleChain w (withChain input (first :: rest2)) =
            ResolveRoleChain.loop w (first :: rest2) b)) := by
  by_cases hs : input.hasStaticCreds
  · cases he : (staticElevation w input first).err with
    | some err =>
      left
      rw [resolve_static_err w (withChain input (first :: rest1)) first rest1 rfl hs err he,
        resolve_static_err w (withChain input (first :: rest2)) first rest2 rfl hs err he]
      exact sameOutcome_fail _ _ _ _ rfl
    | none =>
      right
      refine ⟨_, _, ?_, Or.inr
        ⟨resolve_static_ok w (withChain input (first :: rest1)) first rest1 rfl hs he,
          resolve_static_ok w (withChain input (first :: rest2)) first rest2 rfl hs he⟩⟩
      exact ⟨rfl, rfl, first :: rest1, rfl⟩
  · cases ha : IsARN first with
    | true =>
      right
      refine ⟨_, _, ?_, Or.inr
        ⟨resolve_arn w (withChain input (first :: rest1)) first rest1 rfl hs ha,
          resolve_arn w (withChain input (first :: rest2)) first rest2 rfl hs ha⟩⟩
      exact ⟨rfl, rfl, first :: rest1, rfl⟩
    | false =>
      by_cases h1 : first = EnvTempRoleChainAlias
      · subst h1
        rcases hg : w.envCredentialsGet with ⟨creds, _ | err⟩
        · right
          refine ⟨_, _, ?_, Or.inl
            ⟨resolve_env_ok w (withChain input (_ :: rest1)) rest1 rfl hs creds hg,
              resolve_env_ok w (withChain input (_ :: rest2)) rest2 rfl hs creds hg⟩⟩
          exact ⟨rfl, rfl, _ :: rest1, rfl⟩
        · left
          rw [resolve_env_err w (withChain input (_ :: rest1)) rest1 rfl hs creds err hg,
            resolve_env_err w (withChain input (_ :: rest2)) rest2 rfl hs creds err hg]
          exact sameOutcome_fail _ _ _ _ rfl
      · by_cases h2 : first = InstanceRoleChainAlias
        · subst h2
          rcases hg : GetEC2RoleCreds w with ⟨creds, _ | err⟩
          · right
            refine ⟨_, _, ?_, Or.inl
              ⟨resolve_instance_ok w (withChain input (_ :: rest1)) rest1 rfl hs creds hg,
                resolve_instance_ok w (withChain input (_ :: rest2)) rest2 rfl hs creds hg⟩⟩
            exact ⟨rfl, rfl, _ :: rest1, rfl⟩
          · left
            rw [resolve_instance_err w (withChain input (_ :: rest1)) rest1 rfl hs creds err hg,
              resolve_instance_err w (withChain input (_ :: rest2)) rest2 rfl hs creds err hg]
            exact sameOutcome_fail _ _ _ _ rfl
        · left
          rw [resolve_unknown w (withChain input (first :: rest1)) first rest1 rfl hs ha h1 h2,
            resolve_unknown w (withChain input (first :: rest2)) first rest2 rfl hs ha h1 h2]
          exact sameOutcome_fail _ _ _ _ rfl

/-- C10: a blank link after the first position is skipped without error:
inserting an empty-string link anywhere after the first link of a chain changes
neither the sequence of seed and elevation calls `ResolveRoleChain` makes (their
targets, basis credentials, MFA fields and answers), nor the triple it returns,
nor whether it succeeds. -/
theorem C10_blank_link_is_skipped (w : World) (input : ResolveRoleChainInput)
    (first : String) (pre post : List String) :
    (ResolveRoleChain w (withChain input (first :: (pre ++ "" :: post)))).calls =
        (ResolveRoleChain w (withChain input (first :: (pre ++ post)))).calls ∧
      (ResolveRoleChain w (withChain input (first :: (pre ++ "" :: post)))).accessKey =
        (ResolveRoleChain w (withChain input (first :: (pre ++ post)))).accessKey ∧
      (ResolveRoleChain w (withChain input (first :: (pre ++ "" :: post)))).secretAccessKey =
        (ResolveRoleChain w (withChain input (first :: (pre ++ post)))).secretAccessKey ∧
      (ResolveRoleChain w (withChain input (first :: (pre ++ "" :: post)))).sessionToken =
        (ResolveRoleChain w (withChain input (first :: (pre ++ post)))).sessionToken ∧
      ((ResolveRoleChain w (withChain input (first :: (pre ++ "" :: post)))).err = none ↔
        (ResolveRoleChain w (withChain input (first :: (pre ++ post)))).err = none) := by
  have key : (ResolveRoleChain w (withChain input (first :: (pre ++ "" :: post)))).SameOutcome
      (ResolveRoleChain w (withChain input (first :: (pre ++ post)))) := by
    rcases ResolveRoleChain_pair w input first (pre ++ "" :: post) (pre ++ post) with
      h | ⟨a, b, hab, ⟨h1, h2⟩ | ⟨h1, h2⟩⟩
    · exact h
    · rw [h1, h2]; exact sameOutcome_loop_insert w pre post a b hab
    · rw [h1, h2]; exact sameOutcome_loop_insert w (first :: pre) post a b hab
  obtain ⟨hc, ht, he⟩ := key
  simp only [Result.triple, Prod.mk.injEq] at ht
  exact ⟨hc, ht.1, ht.2.1, ht.2.2, he⟩

/-! ## The cache key -/

theorem hextable_getD_mem (i : Fin 16) : hextable.getD i.val '0' ∈ hextable := by
  revert i; decide

theorem hextable_getD_inj (i j : Fin 16)
    (h : hextable.getD i.val '0' = hextable.getD j.val '0') : i = j := by
  revert i j; decide

theorem hexEncodeToString_length (src : List (Fin 256)) :
    (hexEncodeToString src).length = 2 * src.length := by
  unfold hexEncodeToString
  rw [String.length_mk]
  induction src with
  | nil => rfl
  | cons b src ih =>
    rw [List.flatMap_cons, List.length_append, ih]
    simp only [List.length_cons, List.length_nil]
    omega

theorem hexEncodeToString_mem (src : List (Fin 256)) (c : Char)
    (h : c ∈ (hexEncodeToString src).data) : c ∈ hextable := by
  unfold hexEncodeToString at h
  simp only [List.mem_flatMap, List.mem_cons, List.mem_singleton] at h
  obtain ⟨b, _, hc⟩ := h
  have h1 : b.val / 16 < 16 := by have := b.isLt; omega
  have h2 : b.val % 16 < 16 := Nat.mod_lt _ (by decide)
  rcases hc with rfl | rfl | hc
  · exact hextable_getD_mem ⟨_, h1⟩
  · exact hextable_getD_mem ⟨_, h2⟩
  · simp at hc

theorem hexEncodeToString_inj (a b : List (Fin 256))
    (h : hexEncodeToString a = hexEncodeToString b) : a = b := by
  unfold hexEncodeToString at h
  have h' := congrArg String.data h
  simp only at h'
  clear h
  induction a generalizing b with
  | nil =>
    cases b with
    | nil => rfl
    | cons y b => simp [List.flatMap_cons] at h'
  | cons x a ih =>
    cases b with
    | nil => simp [List.flatMap_cons] at h'
    | cons y b =>
      simp only [List.flatMap_cons, List.cons_append, List.nil_append, List.cons.injEq] at h'
      obtain ⟨hhi, hlo, hrest⟩ := h'
      have hx1 : x.val / 16 < 16 := by have := x.isLt; omega
      have hy1 : y.val / 16 < 16 := by have := y.isLt; omega
      have hx2 : x.val % 16 < 16 := Nat.mod_lt _ (by decide)
      have hy2 : y.val % 16 < 16 := Nat.mod_lt _ (by decide)
      have e1 := congrArg Fin.val (hextable_getD_inj ⟨_, hx1⟩ ⟨_, hy1⟩ hhi)
      have e2 := congrArg Fin.val (hextable_getD_inj ⟨_, hx2⟩ ⟨_, hy2⟩ hlo)
      simp only at e1 e2
      have hxy : x = y := by
        apply Fin.ext
        omega
      rw [hxy, ih b hrest]

/-- C14: for every key, `Key.String` is the lowercase hex encoding of the hash of
`MfaSerial` followed by `Role`; it has exactly 64 characters, all of them among
`0123456789abcdef`, none of them a path separator; and the cache file of the key
is `filepath.Join` of the store's directory and that name. -/
theorem C14_key_string_is_hex_name (sys : Sys) (s : cache.Store) (k : cache.Key) :
    k.String sys = hexEncodeToString (sys.Sum256 (k.MfaSerial ++ k.Role)).bytes ∧
      (k.String sys).length = 64 ∧
      (∀ c ∈ (k.String sys).data, c ∈ "0123456789abcdef".data) ∧
      '/' ∉ (k.String sys).data ∧ '\\' ∉ (k.String sys).data ∧
      s.filename sys k = sys.filepathJoin s.Dir (k.String sys) := by
  have hmem : ∀ c ∈ (k.String sys).data, c ∈ hextable :=
    fun c hc => hexEncodeToString_mem _ c hc
  refine ⟨rfl, ?_, hmem, ?_, ?_, rfl⟩
  · show (hexEncodeToString _).length = 64
    rw [hexEncodeToString_length, (sys.Sum256 _).size]
  · intro h; exact absurd (hmem _ h) (by decide)
  · intro h; exact absurd (hmem _ h) (by decide)

theorem string_append_left_cancel (a b c : String) : a ++ b = a ++ c ↔ b = c := by
  constructor
  · intro h
    have h' := congrArg String.data h
    simp only [String.data_append] at h'
    exact String.ext (List.append_cancel_left h')
  · intro h; rw [h]

theorem string_append_right_cancel (a b c : String) : a ++ c = b ++ c ↔ a = b := by
  constructor
  · intro h
    have h' := congrArg String.data h
    simp only [String.data_append] at h'
    exact String.ext (List.append_cancel_right h')
  · intro h; rw [h]

/-- C15 (counterexample): the keys `("ab", "c")` and `("a", "bc")` differ, the
strings fed to the hash are the same, and so is the cache key, whatever the hash
function is. -/
theorem C15_counterexample :
    keyAbC ≠ keyABc ∧
      keyAbC.MfaSerial ++ keyAbC.Role = keyABc.MfaSerial ++ keyABc.Role ∧
      ∀ sys : Sys, keyAbC.String sys = keyABc.String sys :=
  ⟨by decide, by decide, fun _ => rfl⟩

/-- C15 (amended): the string fed to the hash is `MfaSerial` followed by `Role`
with nothing in between.  Two keys with the same `MfaSerial` feed different
strings exactly when their `Role`s differ, two keys with the same `Role` exactly
when their `MfaSerial`s differ; and for any two keys the cache keys differ exactly
when the hashes of the two strings differ. -/
theorem C15_key_separates_by_concatenation (sys : Sys) (k1 k2 : cache.Key)
    (serial role r1 r2 s1 s2 : String) :
    (k1.String sys ≠ k2.String sys ↔
      (sys.Sum256 (k1.MfaSerial ++ k1.Role)).bytes ≠
        (sys.Sum256 (k2.MfaSerial ++ k2.Role)).bytes) ∧
    (k1.MfaSerial ++ k1.Role = k2.MfaSerial ++ k2.Role → k1.String sys = k2.String sys) ∧
    ((cache.Key.mk serial r1).MfaSerial ++ (cache.Key.mk serial r1).Role ≠
        (cache.Key.mk serial r2).MfaSerial ++ (cache.Key.mk serial r2).Role ↔ r1 ≠ r2) ∧
    ((cache.Key.mk s1 role).MfaSerial ++ (cache.Key.mk s1 role).Role ≠
        (cache.Key.mk s2 role).MfaSerial ++ (cache.Key.mk s2 role).Role ↔ s1 ≠ s2) := by
  refine ⟨?_, ?_, ?_, ?_⟩
  · apply not_congr
    constructor
    · exact hexEncodeToString_inj _ _
    · intro h; unfold cache.Key.String; simp only [h]
  · intro h; unfold cache.Key.String; simp only [h]
  · exact not_congr (string_append_left_cancel serial r1 r2)
  · exact not_congr (string_append_right_cancel s1 s2 role)

/-- C15 (witness): the two keys with the same concatenation in the sample
system. -/
theorem C15_key_separates_by_concatenation_witness :
    keyAbC.MfaSerial ++ keyAbC.Role = keyABc.MfaSerial ++ keyABc.Role ∧
      keyAbC.String sampleSys = keyABc.String sampleSys ∧
      ((cache.Key.mk "ab" "c").MfaSerial ++ (cache.Key.mk "ab" "c").Role ≠
        (cache.Key.mk "ab" "d").MfaSerial ++ (cache.Key.mk "ab" "d").Role) :=
  ⟨by decide,
    (C15_key_separates_by_concatenation sampleSys keyAbC keyABc "ab" "c" "c" "d" "a" "b").2.1
      (by decide),
    (C15_key_separates_by_concatenation sampleSys keyAbC keyABc "ab" "c" "c" "d" "a" "b").2.2.1.2
      (by decide)⟩

/-! ## Reading and writing the cache -/

theorem wrapInt64_of_isInt64 (x : Int) (h : isInt64 x) : wrapInt64 x = x := by
  unfold isInt64 at h
  unfold wrapInt64
  omega

theorem osMkdirAll_ok (fs : FileSystem) (dir : String) (h : fs.mkdirAllErr dir = none) :
    osMkdirAll fs dir =
      ({ fs with dirs := if dir ∈ fs.dirs then fs.dirs else dir :: fs.dirs }, none) := by
  simp [osMkdirAll, h]

theorem osMkdirAll_err (fs : FileSystem) (dir : String) (err : Error)
    (h : fs.mkdirAllErr dir = some err) : osMkdirAll fs dir = (fs, some err) := by
  simp [osMkdirAll, h]

/-- What `Store.Read` returns, by the state of the directory and of the file. -/
theorem Read_cases (sys : Sys) (fs : FileSystem) (now : Int) (s : cache.Store)
    (k : cache.Key) :
    (∃ err, fs.mkdirAllErr s.Dir = some err ∧
      (s.Read sys fs now k).2 = ({}, some (Error.withStack err))) ∨
    (fs.mkdirAllErr s.Dir = none ∧ fs.files (s.filename sys k) = none ∧
      (s.Read sys fs now k).2 = ({}, none)) ∨
    (fs.mkdirAllErr s.Dir = none ∧
      ∃ err, fs.files (s.filename sys k) = some (Node.unreadable err) ∧
        (s.Read sys fs now k).2 =
          ({}, some (Error.wrap err
            ("failed to read cache file [" ++ s.filename sys k ++ "]")))) ∨
    (fs.mkdirAllErr s.Dir = none ∧
      ∃ buf, fs.files (s.filename sys k) = some (Node.file buf) ∧
        ((∃ err, (sys.jsonUnmarshal buf).2 = some err ∧
            (s.Read sys fs now k).2 = ({}, some (Error.withStack err))) ∨
         ((sys.jsonUnmarshal buf).2 = none ∧
            0 < wrapInt64 ((sys.jsonUnmarshal buf).1.Expires - now) ∧
            (s.Read sys fs now k).2 = ((sys.jsonUnmarshal buf).1, none)) ∨
         ((sys.jsonUnmarshal buf).2 = none ∧
            ¬ 0 < wrapInt64 ((sys.jsonUnmarshal buf).1.Expires - now) ∧
            (s.Read sys fs now k).2 = ({}, none)))) := by
  cases hd : fs.mkdirAllErr s.Dir with
  | some err =>
    left
    exact ⟨err, rfl, by simp [cache.Store.Read, cache.Store.mkdir, osMkdirAll, hd, errorsWithStack]⟩
  | none =>
    right
    cases hf : fs.files (s.filename sys k) with
    | none =>
      left
      exact ⟨rfl, rfl, by simp [cache.Store.Read, cache.Store.mkdir, osMkdirAll, hd,
        ioutilReadFile, hf]⟩
    | some node =>
      right
      cases node with
      | unreadable err =>
        left
        exact ⟨rfl, err, rfl, by simp [cache.Store.Read, cache.Store.mkdir, osMkdirAll, hd,
          ioutilReadFile, hf, errorsWrap]⟩
      | file buf =>
        right
        refine ⟨rfl, buf, rfl, ?_⟩
        rcases hu : sys.jsonUnmarshal buf with ⟨v, _ | err⟩
        · right
          by_cases hx : 0 < wrapInt64 (v.Expires - now)
          · left
            exact ⟨rfl, hx, by simp [cache.Store.Read, cache.Store.mkdir, osMkdirAll, hd,
              ioutilReadFile, hf, hu, hx]⟩
          · right
            exact ⟨rfl, hx, by simp [cache.Store.Read, cache.Store.mkdir, osMkdirAll, hd,
              ioutilReadFile, hf, hu, hx]⟩
        · left
          exact ⟨err, rfl, by simp [cache.Store.Read, cache.Store.mkdir, osMkdirAll, hd,
            ioutilReadFile, hf, hu, errorsWithStack]⟩

/-- C13: `Store.Read` on a key whose cache file does not exist returns the zero
value with a nil error (once the cache directory is there); it returns a non-nil
error only when creating the cache directory fails, when reading the file fails
for a reason other than not-found, or when the stored content is malformed; and
with every error the value it returns is the zero value. -/
theorem C13_read_miss_and_errors (sys : Sys) (fs : FileSystem) (now : Int)
    (s : cache.Store) (k : cache.Key) :
    (fs.mkdirAllErr s.Dir = none → fs.files (s.filename sys k) = none →
      (s.Read sys fs now k).2 = ({}, none)) ∧
    ((s.Read sys fs now k).2.2 ≠ none →
      fs.mkdirAllErr s.Dir ≠ none ∨
      (∃ err, fs.files (s.filename sys k) = some (Node.unreadable err)) ∨
      (∃ buf, fs.files (s.filename sys k) = some (Node.file buf) ∧
        (sys.jsonUnmarshal buf).2 ≠ none)) ∧
    ((s.Read sys fs now k).2.2 ≠ none → (s.Read sys fs now k).2.1 = {}) := by
  rcases Read_cases sys fs now s k with
    ⟨err, hd, h⟩ | ⟨hd, hf, h⟩ | ⟨hd, err, hf, h⟩ |
      ⟨hd, buf, hf, ⟨err, hu, h⟩ | ⟨hu, hx, h⟩ | ⟨hu, hx, h⟩⟩
  · refine ⟨fun hd' => ?_, fun _ => Or.inl (by simp [hd]), fun _ => by rw [h]⟩
    rw [hd] at hd'; exact absurd hd' (by simp)
  · exact ⟨fun _ _ => h, fun he => by rw [h] at he; exact absurd rfl he, fun _ => by rw [h]⟩
  · refine ⟨fun _ hf' => ?_, fun _ => Or.inr (Or.inl ⟨err, hf⟩), fun _ => by rw [h]⟩
    rw [hf] at hf'; exact absurd hf' (by simp)
  · refine ⟨fun _ hf' => ?_, fun _ => Or.inr (Or.inr ⟨buf, hf, by simp [hu]⟩),
      fun _ => by rw [h]⟩
    rw [hf] at hf'; exact absurd hf' (by simp)
  · refine ⟨fun _ hf' => ?_, fun he => by rw [h] at he; exact absurd rfl he,
      fun he => by rw [h] at he; exact absurd rfl he⟩
    rw [hf] at hf'; exact absurd hf' (by simp)
  · refine ⟨fun _ hf' => ?_, fun he => by rw [h] at he; exact absurd rfl he,
      fun _ => by rw [h]⟩
    rw [hf] at hf'; exact absurd hf' (by simp)

/-- C13 (witness): a miss in the empty file system, and the error for a cache
file that cannot be read. -/
theorem C13_read_miss_and_errors_witness :
    (sampleStore.Read sampleSys emptyFS 1700000000 sampleKey).2 = ({}, none) ∧
      (sampleStore.Read sampleSys lockedFS 1700000000 sampleKey).2.2 ≠ none ∧
      (sampleStore.Read sampleSys lockedFS 1700000000 sampleKey).2.1 = {} :=
  ⟨(C13_read_miss_and_errors sampleSys emptyFS 1700000000 sampleStore sampleKey).1 rfl rfl,
    by decide,
    (C13_read_miss_and_errors sampleSys lockedFS 1700000000 sampleStore sampleKey).2.2
      (by decide)⟩

/-- C12 (the code at the failing input): the stored entry expires at the least
`int64`, long before the Unix time 1700000000 of the read; the difference
`Expires - now` wraps around to a positive number and `Store.Read` returns the
entry as if it were still valid. -/
theorem C12_expired_entry_returned_on_wraparound :
    isInt64 ancientEntry.Expires ∧ ancientEntry.Expires ≤ 1700000000 ∧
      wrapInt64 (ancientEntry.Expires - 1700000000) = 9223372035154775808 ∧
      (sampleStore.Read sampleSys ancientFS 1700000000 sampleKey).2 = (ancientEntry, none) := by
  decide

/-- C11 (the code at the failing input): an entry whose expiry is the least
`int64` is written with success and read back at Unix time 1700000000, after its
expiry; `Store.Read` returns the entry, not the zero value. -/
theorem C11_expired_entry_read_back_after_write :
    (sampleStore.Write sampleSys emptyFS sampleKey ancientEntry).2 = none ∧
      ancientEntry.Expires < 1700000000 ∧
      (sampleStore.Read sampleSys
        (sampleStore.Write sampleSys emptyFS sampleKey ancientEntry).1
        1700000000 sampleKey).2 = (ancientEntry, none) := by
  decide

/-! ## The broker -/

/-- C16 (counterexample): caching is not skipped and the cache read yields an
unexpired stored entry, one without an access key id; `Credentials` calls the
provider, returns the provider's credentials and writes the cache. -/
theorem C16_counterexample :
    sampleMixin.CacheSkip = false ∧
      (sampleStore.Read sampleSys keylessFS sampleEnv.readNow sampleKey).2 =
        (keylessEntry, none) ∧
      sampleEnv.readNow < keylessEntry.Expires ∧
      (sampleMixin.Credentials sampleSys sampleEnv sampleProvider keylessFS).cacheRead = true ∧
      (sampleMixin.Credentials sampleSys sampleEnv sampleProvider keylessFS).providerInput ≠
        none ∧
      (sampleMixin.Credentials sampleSys sampleEnv sampleProvider keylessFS).written =
        some (sampleKey, freshEntry) ∧
      (sampleMixin.Credentials sampleSys sampleEnv sampleProvider keylessFS).creds =
        some (CredentialsObject.other freshValue none) := by
  decide

/-- C18 (the code at the failing input): with a session of 9223372047 seconds the
duration `(SessionTtlSec - 10) * time.Second` wraps around, and the entry written
at Unix time 1700000000 expires at -7523372037, not at
`1700000000 + (9223372047 - 10)`. -/
theorem C18_expiry_wraps_for_long_session :
    secondsDuration (wrapInt64 (longSessionMixin.SessionTtlSec - auth.cacheEarlyTtlSec)) =
        -9223372036709551616 ∧
      (longSessionMixin.Credentials sampleSys sampleEnv sampleProvider emptyFS).written =
        some (sampleKey, { freshEntry with Expires := -7523372037 }) ∧
      sampleEnv.writeNow + (longSessionMixin.SessionTtlSec - auth.cacheEarlyTtlSec) =
        10923372037 := by
  decide

/-! ### The file system under `Store.Read` and `Store.Write` -/

theorem Read_fs (sys : Sys) (fs : FileSystem) (now : Int) (s : cache.Store) (k : cache.Key) :
    (s.Read sys fs now k).1.files = fs.files ∧
      (s.Read sys fs now k).1.mkdirAllErr = fs.mkdirAllErr ∧
      (s.Read sys fs now k).1.writeFileErr = fs.writeFileErr := by
  unfold cache.Store.Read cache.Store.mkdir osMkdirAll
  cases fs.mkdirAllErr s.Dir with
  | some err => exact ⟨rfl, rfl, rfl⟩
  | none =>
    simp only
    cases ioutilReadFile _ (s.filename sys k) with
    | notExist e => exact ⟨rfl, rfl, rfl⟩
    | failed e => exact ⟨rfl, rfl, rfl⟩
    | ok buf =>
      simp only
      rcases sys.jsonUnmarshal buf with ⟨v, _ | err⟩
      · simp only
        split <;> exact ⟨rfl, rfl, rfl⟩
      · exact ⟨rfl, rfl, rfl⟩

/-- What `Store.Write` does, by the state of the directory, the encoder and the
file. -/
theorem Write_cases (sys : Sys) (fs : FileSystem) (s : cache.Store) (k : cache.Key)
    (out : cache.Value) :
    ((s.Write sys fs k out).2 ≠ none ∧ (s.Write sys fs k out).1.files = fs.files ∧
      (s.Write sys fs k out).1.mkdirAllErr = fs.mkdirAllErr) ∨
    ((s.Write sys fs k out).2 = none ∧ fs.mkdirAllErr s.Dir = none ∧
      (sys.jsonMarshal out).2 = none ∧
      (s.Write sys fs k out).1.mkdirAllErr = fs.mkdirAllErr ∧
      (s.Write sys fs k out).1.files = fun p =>
        if p = s.filename sys k then some (Node.file (sys.jsonMarshal out).1)
        else fs.files p) := by
  unfold cache.Store.Write cache.Store.mkdir osMkdirAll
  cases hd : fs.mkdirAllErr s.Dir with
  | some err => left; simp [errorsWithStack]
  | none =>
    simp only
    rcases hm : sys.jsonMarshal out with ⟨buf, _ | err⟩
    · simp only
      unfold ioutilWriteFile
      cases hw : fs.writeFileErr (s.filename sys k) with
      | some err => left; simp [hw, errorsWrap]
      | none => right; simp [hw]
    · left; simp [errorsWithStack]

/-- Reading back what was written: after a `Store.Write` without error, a
`Store.Read` of the same key in the same store finds the file, and if the decoder
returns the entry that was encoded, the entry is returned when `Expires - now`,
as an `int64`, is positive, and the zero value otherwise. -/
theorem Read_after_Write (sys : Sys) (fs : FileSystem) (now : Int) (s : cache.Store)
    (k : cache.Key) (out : cache.Value)
    (hw : (s.Write sys fs k out).2 = none)
    (hcodec : sys.jsonUnmarshal (sys.jsonMarshal out).1 = (out, none)) :
    (s.Read sys (s.Write sys fs k out).1 now k).2 =
      if 0 < wrapInt64 (out.Expires - now) then (out, none) else ({}, none) := by
  rcases Write_cases sys fs s k out with ⟨hne, _⟩ | ⟨_, hd, _, hmk, hfiles⟩
  · exact absurd hw hne
  · have hd' : (s.Write sys fs k out).1.mkdirAllErr s.Dir = none := by rw [hmk]; exact hd
    have hf : (s.Write sys fs k out).1.files (s.filename sys k) =
        some (Node.file (sys.jsonMarshal out).1) := by rw [hfiles]; simp
    rcases Read_cases sys (s.Write sys fs k out).1 now s k with
      ⟨err, hd2, _⟩ | ⟨_, hf2, _⟩ | ⟨_, err, hf2, _⟩ |
        ⟨_, buf, hf2, ⟨err, hu, _⟩ | ⟨_, hx, h⟩ | ⟨_, hx, h⟩⟩
    · rw [hd'] at hd2; exact absurd hd2 (by simp)
    · rw [hf] at hf2; exact absurd hf2 (by simp)
    · rw [hf] at hf2; exact absurd hf2 (by simp)
    · rw [hf] at hf2
      obtain rfl : (sys.jsonMarshal out).1 = buf := by simpa using hf2
      rw [hcodec] at hu; exact absurd hu (by simp)
    · rw [hf] at hf2
      obtain rfl : (sys.jsonMarshal out).1 = buf := by simpa using hf2
      rw [hcodec] at hx h
      rw [h, if_pos hx]
    · rw [hf] at hf2
      obtain rfl : (sys.jsonMarshal out).1 = buf := by simpa using hf2
      rw [hcodec] at hx
      rw [h, if_neg hx]

/-- Away from wrap-around the check of `Store.Read` is the comparison of the
expiry with the clock. -/
theorem expiry_check_of_isInt64 (expires now : Int) (h : isInt64 (expires - now)) :
    0 < wrapInt64 (expires - now) ↔ now < expires := by
  rw [wrapInt64_of_isInt64 _ h]
  omega

/-! ### The ways through `Credentials` -/

/-- A cached value with an access key id ends the call: static credentials made
of it, no provider, no write. -/
theorem resolve_hit (sys : Sys) (env : auth.Env) (provider : auth.Provider) (m : auth.Mixin)
    (fs : FileSystem) (cacheRead : Bool) (mfaCode : String) (cacheStore : cache.Store)
    (cacheKey : cache.Key) (cacheVal : cache.Value) (h : cacheVal.AccessKeyID ≠ "") :
    m.resolve sys env provider fs cacheRead mfaCode cacheStore cacheKey cacheVal =
      { m := m, fs := fs, cacheRead := cacheRead,
        creds := some (CredentialsObject.static cacheVal.AccessKeyID cacheVal.SecretAccessKey
          cacheVal.SessionToken) } := by
  simp [auth.Mixin.resolve, h]

/-- Without a cached access key id the provider is called; the four ways the call
can go on from there. -/
theorem resolve_miss (sys : Sys) (env : auth.Env) (provider : auth.Provider) (m : auth.Mixin)
    (fs : FileSystem) (cacheRead : Bool) (mfaCode : String) (cacheStore : cache.Store)
    (cacheKey : cache.Key) (cacheVal : cache.Value) (h : cacheVal.AccessKeyID = "") :
    (∃ providerErr, provider (m.providerInput mfaCode) = Except.error providerErr ∧
      m.resolve sys env provider fs cacheRead mfaCode cacheStore cacheKey cacheVal =
        { m := m, fs := fs, cacheRead := cacheRead,
          providerInput := some (m.providerInput mfaCode),
          err := some (Error.wrap providerErr "failed to get credentials provider") }) ∨
    (∃ creds credsErr, provider (m.providerInput mfaCode) = Except.ok creds ∧
      creds.Get.2 = some credsErr ∧
      m.resolve sys env provider fs cacheRead mfaCode cacheStore cacheKey cacheVal =
        { m := m, fs := fs, cacheRead := cacheRead,
          providerInput := some (m.providerInput mfaCode),
          err := some (Error.wrap credsErr "failed to get credentials value") }) ∨
    (∃ creds writeErr, provider (m.providerInput mfaCode) = Except.ok creds ∧
      creds.Get.2 = none ∧
      (cacheStore.Write sys fs cacheKey (m.entryFor env creds.Get.1)).2 = some writeErr ∧
      m.resolve sys env provider fs cacheRead mfaCode cacheStore cacheKey cacheVal =
        { m := m, fs := (cacheStore.Write sys fs cacheKey (m.entryFor env creds.Get.1)).1,
          cacheRead := cacheRead, providerInput := some (m.providerInput mfaCode),
          written := some (cacheKey, m.entryFor env creds.Get.1),
          err := some (Error.wrap writeErr
            ("failed to write cache key [" ++ cacheKey.String sys ++ "]")) }) ∨
    (∃ creds, provider (m.providerInput mfaCode) = Except.ok creds ∧
      creds.Get.2 = none ∧
      (cacheStore.Write sys fs cacheKey (m.entryFor env creds.Get.1)).2 = none ∧
      m.resolve sys env provider fs cacheRead mfaCode cacheStore cacheKey cacheVal =
        { m := m, fs := (cacheStore.Write sys fs cacheKey (m.entryFor env creds.Get.1)).1,
          cacheRead := cacheRead, providerInput := some (m.providerInput mfaCode),
          written := some (cacheKey, m.entryFor env creds.Get.1),
          creds := some creds }) := by
  cases hp : provider (m.providerInput mfaCode) with
  | error providerErr =>
    left
    refine ⟨providerErr, rfl, ?_⟩
    unfold auth.Mixin.providerInput at hp
    simp [auth.Mixin.resolve, h, hp, errorsWrap, auth.Mixin.providerInput]
  | ok creds =>
    right
    unfold auth.Mixin.providerInput at hp
    rcases hg : creds.Get with ⟨credsVal, _ | credsErr⟩
    · right
      rcases hw : cacheStore.Write sys fs cacheKey (m.entryFor env credsVal) with
        ⟨fs1, _ | writeErr⟩
      · right
        refine ⟨creds, rfl, by simp [hg], by simp [hg, hw], ?_⟩
        unfold auth.Mixin.entryFor at hw
        simp [auth.Mixin.resolve, h, hp, hg, hw, auth.Mixin.providerInput, auth.Mixin.entryFor]
      · left
        refine ⟨creds, writeErr, rfl, by simp [hg], by simp [hg, hw], ?_⟩
        unfold auth.Mixin.entryFor at hw
        simp [auth.Mixin.resolve, h, hp, hg, hw, errorsWrap, auth.Mixin.providerInput,
          auth.Mixin.entryFor]
    · left
      refine ⟨creds, credsErr, rfl, by simp [hg], ?_⟩
      simp [auth.Mixin.resolve, h, hp, hg, errorsWrap, auth.Mixin.providerInput]

/-- The ways `Credentials` ends before it looks for a cached value, and the call
of `lookup` it makes otherwise. -/
theorem Credentials_cases (sys : Sys) (env : auth.Env) (provider : auth.Provider)
    (m : auth.Mixin) (fs : FileSystem) :
    (¬ m.ReachesCache env ∧
      (m.Credentials sys env provider fs).cacheRead = false ∧
      (m.Credentials sys env provider fs).providerInput = none ∧
      (m.Credentials sys env provider fs).written = none ∧
      (m.Credentials sys env provider fs).creds = none ∧
      (m.Credentials sys env provider fs).fs = fs ∧
      ((m.Credentials sys env provider fs).err ≠ none ∨
        (m.Credentials sys env provider fs).exited = true)) ∨
    (m.ReachesCache env ∧
      ∃ mfaCode,
        m.Credentials sys env provider fs =
          auth.Mixin.lookup sys env provider
            { m with CacheDir := m.resolvedCacheDir sys env } fs mfaCode) := by
  unfold auth.Mixin.ReachesCache
  by_cases hdir : m.CacheDir = ""
  · rcases hh : env.homedirDir with ⟨homeDir, _ | homeErr⟩
    · by_cases hserial : m.MfaSerial = ""
      · right
        refine ⟨⟨Or.inr rfl, Or.inl hserial⟩, "", ?_⟩
        simp [auth.Mixin.Credentials, auth.Mixin.withCacheDir, hdir, hh, hserial,
          auth.Mixin.resolvedCacheDir]
      · by_cases hsrc : m.MfaSource = auth.DefaultMfaSource
        · rcases hpr : env.PromptHiddenf with ⟨code, _ | promptErr⟩
          · right
            refine ⟨⟨Or.inr rfl, Or.inr (Or.inr rfl)⟩, code, ?_⟩
            simp [auth.Mixin.Credentials, auth.Mixin.withCacheDir, hdir, hh, hserial, hsrc, hpr,
              auth.Mixin.resolvedCacheDir]
          · left
            refine ⟨by simp [hserial, hsrc], ?_⟩
            simp [auth.Mixin.Credentials, auth.Mixin.withCacheDir, hdir, hh, hserial, hsrc, hpr]
        · right
          refine ⟨⟨Or.inr rfl, Or.inr (Or.inl hsrc)⟩, env.Getenv m.MfaSource, ?_⟩
          simp [auth.Mixin.Credentials, auth.Mixin.withCacheDir, hdir, hh, hserial, hsrc,
            auth.Mixin.resolvedCacheDir]
    · left
      refine ⟨by simp [hdir], ?_⟩
      simp [auth.Mixin.Credentials, hdir, hh, errorsWrap]
  · have hm : { m with CacheDir := m.resolvedCacheDir sys env } = m := by
      simp [auth.Mixin.resolvedCacheDir, hdir]
    rw [hm]
    by_cases hserial : m.MfaSerial = ""
    · right
      refine ⟨⟨Or.inl hdir, Or.inl hserial⟩, "", ?_⟩
      simp [auth.Mixin.Credentials, auth.Mixin.withCacheDir, hdir, hserial]
    · by_cases hsrc : m.MfaSource = auth.DefaultMfaSource
      · rcases hpr : env.PromptHiddenf with ⟨code, _ | promptErr⟩
        · right
          refine ⟨⟨Or.inl hdir, Or.inr (Or.inr rfl)⟩, code, ?_⟩
          simp [auth.Mixin.Credentials, auth.Mixin.withCacheDir, hdir, hserial, hsrc, hpr]
        · left
          refine ⟨by simp [hserial, hsrc], ?_⟩
          simp [auth.Mixin.Credentials, auth.Mixin.withCacheDir, hdir, hserial, hsrc, hpr]
      · right
        refine ⟨⟨Or.inl hdir, Or.inr (Or.inl hsrc)⟩, env.Getenv m.MfaSource, ?_⟩
        simp [auth.Mixin.Credentials, auth.Mixin.withCacheDir, hdir, hserial, hsrc]

/-- The same, with the mixin that `lookup` receives described by its fields. -/
theorem Credentials_reaches (sys : Sys) (env : auth.Env) (provider : auth.Provider)
    (m : auth.Mixin) (fs : FileSystem) (h : m.ReachesCache env) :
    ∃ (m' : auth.Mixin) (mfaCode : String),
      m'.CacheDir = m.resolvedCacheDir sys env ∧ m'.CacheSkip = m.CacheSkip ∧
      m'.cacheKey = m.cacheKey ∧
      (∀ code, m'.providerInput code = m.providerInput code) ∧
      (∀ v, m'.entryFor env v = m.entryFor env v) ∧
      m.Credentials sys env provider fs = m'.lookup sys env provider fs mfaCode := by
  rcases Credentials_cases sys env provider m fs with ⟨hn, _⟩ | ⟨_, mfaCode, hc⟩
  · exact absurd h hn
  · exact ⟨{ m with CacheDir := m.resolvedCacheDir sys env }, mfaCode, rfl, rfl, rfl,
      fun _ => rfl, fun _ => rfl, hc⟩

theorem Credentials_stops (sys : Sys) (env : auth.Env) (provider : auth.Provider)
    (m : auth.Mixin) (fs : FileSystem) (h : ¬ m.ReachesCache env) :
    (m.Credentials sys env provider fs).cacheRead = false ∧
      (m.Credentials sys env provider fs).providerInput = none ∧
      (m.Credentials sys env provider fs).written = none ∧
      (m.Credentials sys env provider fs).creds = none ∧
      (m.Credentials sys env provider fs).fs = fs := by
  rcases Credentials_cases sys env provider m fs with ⟨_, h1, h2, h3, h4, h5, _⟩ | ⟨hr, _⟩
  · exact ⟨h1, h2, h3, h4, h5⟩
  · exact absurd hr h

theorem lookup_skip (sys : Sys) (env : auth.Env) (provider : auth.Provider) (m : auth.Mixin)
    (fs : FileSystem) (mfaCode : String) (h : m.CacheSkip = true) :
    m.lookup sys env provider fs mfaCode =
      m.resolve sys env provider fs false mfaCode (cache.NewStore m.CacheDir) m.cacheKey {} := by
  simp [auth.Mixin.lookup, h, auth.Mixin.cacheKey]

theorem lookup_read_ok (sys : Sys) (env : auth.Env) (provider : auth.Provider)
    (m : auth.Mixin) (fs : FileSystem) (mfaCode : String) (h : m.CacheSkip = false)
    (v : cache.Value)
    (hr : ((cache.NewStore m.CacheDir).Read sys fs env.readNow m.cacheKey).2 = (v, none)) :
    m.lookup sys env provider fs mfaCode =
      m.resolve sys env provider
        ((cache.NewStore m.CacheDir).Read sys fs env.readNow m.cacheKey).1 true mfaCode
        (cache.NewStore m.CacheDir) m.cacheKey v := by
  rcases hx : (cache.NewStore m.CacheDir).Read sys fs env.readNow m.cacheKey with ⟨fs1, v', e'⟩
  rw [hx] at hr
  simp only [Prod.mk.injEq] at hr
  obtain ⟨rfl, rfl⟩ := hr
  unfold auth.Mixin.cacheKey at hx
  simp [auth.Mixin.lookup, h, hx, auth.Mixin.cacheKey]

theorem lookup_read_err (sys : Sys) (env : auth.Env) (provider : auth.Provider)
    (m : auth.Mixin) (fs : FileSystem) (mfaCode : String) (h : m.CacheSkip = false)
    (readErr : Error)
    (hr : ((cache.NewStore m.CacheDir).Read sys fs env.readNow m.cacheKey).2.2 = some readErr) :
    m.lookup sys env provider fs mfaCode =
      { m := m, fs := ((cache.NewStore m.CacheDir).Read sys fs env.readNow m.cacheKey).1,
        cacheRead := true,
        err := some (Error.wrap readErr
          ("failed to read cache key [" ++ m.cacheKey.String sys ++ "]")) } := by
  rcases hx : (cache.NewStore m.CacheDir).Read sys fs env.readNow m.cacheKey with ⟨fs1, v', e'⟩
  rw [hx] at hr
  simp only at hr
  subst hr
  unfold auth.Mixin.cacheKey at hx
  simp [auth.Mixin.lookup, h, hx, auth.Mixin.cacheKey, errorsWrap]

theorem resolve_regular (sys : Sys) (env : auth.Env) (provider : auth.Provider)
    (m : auth.Mixin) (fs fs0 : FileSystem) (cacheRead : Bool) (mfaCode : String)
    (v : cache.Value) (hfs : fs0.files = fs.files) :
    (m.resolve sys env provider fs0 cacheRead mfaCode (cache.NewStore m.CacheDir)
      m.cacheKey v).Regular provider m mfaCode fs ∧
    (m.resolve sys env provider fs0 cacheRead mfaCode (cache.NewStore m.CacheDir)
      m.cacheKey v).cacheRead = cacheRead := by
  by_cases hk : v.AccessKeyID = ""
  · rcases resolve_miss sys env provider m fs0 cacheRead mfaCode (cache.NewStore m.CacheDir)
        m.cacheKey v hk with
      ⟨e, hp, h⟩ | ⟨c, e, hp, _, h⟩ | ⟨c, e, hp, _, _, h⟩ | ⟨c, hp, _, _, h⟩
    · rw [h]
      refine ⟨⟨rfl, fun input hi => ?_, fun _ _ _ => ⟨by simp, rfl, rfl, hfs⟩⟩, rfl⟩
      simpa using hi.symm
    · rw [h]
      refine ⟨⟨rfl, fun input hi => ?_, fun e' _ he' => ?_⟩, rfl⟩
      · simpa using hi.symm
      · rw [hp] at he'; exact absurd he' (by simp)
    · rw [h]
      refine ⟨⟨rfl, fun input hi => ?_, fun e' _ he' => ?_⟩, rfl⟩
      · simpa using hi.symm
      · rw [hp] at he'; exact absurd he' (by simp)
    · rw [h]
      refine ⟨⟨rfl, fun input hi => ?_, fun e' _ he' => ?_⟩, rfl⟩
      · simpa using hi.symm
      · rw [hp] at he'; exact absurd he' (by simp)
  · rw [resolve_hit sys env provider m fs0 cacheRead mfaCode _ _ v hk]
    exact ⟨⟨rfl, fun input hi => by simp at hi, fun _ hne _ => absurd rfl hne⟩, rfl⟩

theorem lookup_outcome (sys : Sys) (env : auth.Env) (provider : auth.Provider)
    (m : auth.Mixin) (fs : FileSystem) (mfaCode : String) :
    (m.lookup sys env provider fs mfaCode).Regular provider m mfaCode fs ∧
    (m.lookup sys env provider fs mfaCode).cacheRead = !m.CacheSkip := by
  cases hskip : m.CacheSkip with
  | true =>
    rw [lookup_skip sys env provider m fs mfaCode hskip]
    exact resolve_regular sys env provider m fs fs false mfaCode {} rfl
  | false =>
    have hfs := (Read_fs sys fs env.readNow (cache.NewStore m.CacheDir) m.cacheKey).1
    rcases hx : ((cache.NewStore m.CacheDir).Read sys fs env.readNow m.cacheKey).2 with
      ⟨v, _ | readErr⟩
    · rw [lookup_read_ok sys env provider m fs mfaCode hskip v hx]
      exact resolve_regular sys env provider m fs _ true mfaCode v hfs
    · rw [lookup_read_err sys env provider m fs mfaCode hskip readErr (by rw [hx])]
      exact ⟨⟨rfl, fun input hi => by simp at hi, fun _ hne _ => absurd rfl hne⟩, rfl⟩

/-- C19: if `provider.Get` is called and fails (it returns an error and no
credentials), `Credentials` returns a non-nil error and nil credentials,
`Store.Write` is not called, and the file of every key is after the call what it
was before. -/
theorem C19_provider_failure_leaves_cache (sys : Sys) (env : auth.Env)
    (provider : auth.Provider) (m : auth.Mixin) (fs : FileSystem)
    (input : auth.ProviderInput)
    (hcall : (m.Credentials sys env provider fs).providerInput = some input)
    (hfail : (provider input).toOption = none) :
    (m.Credentials sys env provider fs).err ≠ none ∧
      (m.Credentials sys env provider fs).creds = none ∧
      (m.Credentials sys env provider fs).written = none ∧
      (m.Credentials sys env provider fs).fs.files = fs.files := by
  by_cases hr : m.ReachesCache env
  · obtain ⟨m', mfaCode, _, _, _, _, _, h⟩ := Credentials_reaches sys env provider m fs hr
    rw [h] at hcall ⊢
    obtain ⟨⟨_, hin, hreg⟩, _⟩ := lookup_outcome sys env provider m' fs mfaCode
    have hi := hin input hcall
    rw [hi] at hfail
    cases hp : provider (m'.providerInput mfaCode) with
    | ok creds => rw [hp] at hfail; simp [Except.toOption] at hfail
    | error providerErr => exact hreg providerErr (by rw [hcall]; simp) hp
  · rw [(Credentials_stops sys env provider m fs hr).2.1] at hcall
    exact absurd hcall (by simp)

/-- C19 (witness): the role provider in a world whose STS rejects every request;
the chain is the instance alias followed by the backup role, so the elevation at
the second link fails. -/
theorem C19_provider_failure_leaves_cache_witness :
    (sampleMixin.Credentials sampleSys sampleEnv (role.provider rejectingWorld)
        emptyFS).providerInput = some (sampleMixin.providerInput "") ∧
      (role.provider rejectingWorld (sampleMixin.providerInput "")).toOption = none ∧
      ((sampleMixin.Credentials sampleSys sampleEnv (role.provider rejectingWorld)
          emptyFS).err ≠ none ∧
        (sampleMixin.Credentials sampleSys sampleEnv (role.provider rejectingWorld)
          emptyFS).creds = none ∧
        (sampleMixin.Credentials sampleSys sampleEnv (role.provider rejectingWorld)
          emptyFS).written = none ∧
        (sampleMixin.Credentials sampleSys sampleEnv (role.provider rejectingWorld)
          emptyFS).fs.files = emptyFS.files) :=
  ⟨by decide, by decide,
    C19_provider_failure_leaves_cache sampleSys sampleEnv (role.provider rejectingWorld)
      sampleMixin emptyFS (sampleMixin.providerInput "") (by decide) (by decide)⟩

/-- C16 (amended): whenever caching is not skipped and the cache read for the
derived key yields an unexpired stored entry whose access key id is not empty,
`Credentials` returns static credentials made of exactly that entry's triple with
a nil error, `provider.Get` is not called, `Store.Write` is not called and no
file changes. -/
theorem C16_cached_entry_is_returned (sys : Sys) (env : auth.Env)
    (provider : auth.Provider) (m : auth.Mixin) (fs : FileSystem) (v : cache.Value)
    (hskip : m.CacheSkip = false)
    (hreach : (m.Credentials sys env provider fs).cacheRead = true)
    (hread : ((cache.NewStore (m.resolvedCacheDir sys env)).Read sys fs env.readNow
      m.cacheKey).2 = (v, none))
    (hkey : v.AccessKeyID ≠ "") :
    (m.Credentials sys env provider fs).creds =
        some (CredentialsObject.static v.AccessKeyID v.SecretAccessKey v.SessionToken) ∧
      (m.Credentials sys env provider fs).err = none ∧
      (m.Credentials sys env provider fs).exited = false ∧
      (m.Credentials sys env provider fs).providerInput = none ∧
      (m.Credentials sys env provider fs).written = none ∧
      (m.Credentials sys env provider fs).fs.files = fs.files := by
  by_cases hr : m.ReachesCache env
  · obtain ⟨m', mfaCode, hdir, hsk, hkeyeq, _, _, h⟩ :=
      Credentials_reaches sys env provider m fs hr
    rw [← hdir, ← hkeyeq] at hread
    rw [h, lookup_read_ok sys env provider m' fs mfaCode (hsk.trans hskip) v hread,
      resolve_hit sys env provider m' _ true mfaCode _ _ v hkey]
    exact ⟨rfl, rfl, rfl, rfl, rfl, (Read_fs sys fs env.readNow _ _).1⟩
  · rw [(Credentials_stops sys env provider m fs hr).1] at hreach
    exact absurd hreach (by simp)

/-- C16 (witness): the sample mixin over a cache that holds an entry expiring at
Unix time 2000000000, read at Unix time 1700000000. -/
theorem C16_cached_entry_is_returned_witness :
    sampleMixin.CacheSkip = false ∧
      sampleEnv.readNow < liveEntry.Expires ∧
      (sampleMixin.Credentials sampleSys sampleEnv sampleProvider liveFS).creds =
        some (CredentialsObject.static "ASIACACHED" "cachedsecret" "cachedtoken") ∧
      (sampleMixin.Credentials sampleSys sampleEnv sampleProvider liveFS).providerInput = none ∧
      (sampleMixin.Credentials sampleSys sampleEnv sampleProvider liveFS).written = none :=
  ⟨rfl, by decide,
    (C16_cached_entry_is_returned sampleSys sampleEnv sampleProvider sampleMixin liveFS
      liveEntry rfl (by decide) (by decide) (by decide)).1,
    (C16_cached_entry_is_returned sampleSys sampleEnv sampleProvider sampleMixin liveFS
      liveEntry rfl (by decide) (by decide) (by decide)).2.2.2.1,
    (C16_cached_entry_is_returned sampleSys sampleEnv sampleProvider sampleMixin liveFS
      liveEntry rfl (by decide) (by decide) (by decide)).2.2.2.2.1⟩

/-! ### The entry of a fresh resolution -/

theorem secondsDuration_of_isInt64 (x : Int) (h : isInt64 (x * 1000000000)) :
    secondsDuration x = x * 1000000000 :=
  wrapInt64_of_isInt64 _ h

theorem unixAfter_whole_seconds (sec : Int) (nsec : Nat) (x : Int) (h : nsec < 1000000000) :
    unixAfter sec nsec (x * 1000000000) = sec + x := by
  unfold unixAfter
  have : ((nsec : Int) + x * 1000000000) / 1000000000 = x := by omega
  rw [this]

theorem entryFor_expires (env : auth.Env) (m : auth.Mixin) (credsVal : Value)
    (h1 : isInt64 (m.SessionTtlSec - 10))
    (h2 : isInt64 ((m.SessionTtlSec - 10) * 1000000000))
    (h3 : env.writeNowNsec < 1000000000) :
    (m.entryFor env credsVal).Expires = env.writeNow + (m.SessionTtlSec - 10) := by
  show unixAfter _ _ (secondsDuration (wrapInt64 (m.SessionTtlSec - 10))) = _
  rw [wrapInt64_of_isInt64 _ h1, secondsDuration_of_isInt64 _ h2,
    unixAfter_whole_seconds _ _ _ h3]

theorem resolve_written (sys : Sys) (env : auth.Env) (provider : auth.Provider)
    (m : auth.Mixin) (fs : FileSystem) (cacheRead : Bool) (mfaCode : String)
    (v : cache.Value) (key : cache.Key) (entry : cache.Value)
    (hw : (m.resolve sys env provider fs cacheRead mfaCode (cache.NewStore m.CacheDir)
      m.cacheKey v).written = some (key, entry)) :
    ∃ creds, provider (m.providerInput mfaCode) = Except.ok creds ∧
      creds.Get.2 = none ∧ key = m.cacheKey ∧ entry = m.entryFor env creds.Get.1 := by
  by_cases hk : v.AccessKeyID = ""
  · rcases resolve_miss sys env provider m fs cacheRead mfaCode (cache.NewStore m.CacheDir)
        m.cacheKey v hk with
      ⟨e, hp, h⟩ | ⟨c, e, hp, _, h⟩ | ⟨c, e, hp, hg, _, h⟩ | ⟨c, hp, hg, _, h⟩
    · rw [h] at hw; simp at hw
    · rw [h] at hw; simp at hw
    · rw [h] at hw
      simp only [Option.some.injEq, Prod.mk.injEq] at hw
      exact ⟨c, hp, hg, hw.1.symm, hw.2.symm⟩
    · rw [h] at hw
      simp only [Option.some.injEq, Prod.mk.injEq] at hw
      exact ⟨c, hp, hg, hw.1.symm, hw.2.symm⟩
  · rw [resolve_hit sys env provider m fs cacheRead mfaCode _ _ v hk] at hw
    simp at hw

/-- The entry a fresh resolution writes: it is stored under the key of the
mixin, and it is the entry made of the credentials of the provider. -/
theorem fresh_entry (sys : Sys) (env : auth.Env) (provider : auth.Provider) (m : auth.Mixin)
    (fs : FileSystem) (key : cache.Key) (entry : cache.Value)
    (hw : (m.Credentials sys env provider fs).written = some (key, entry)) :
    ∃ creds mfaCode, provider (m.providerInput mfaCode) = Except.ok creds ∧
      creds.Get.2 = none ∧ key = m.cacheKey ∧ entry = m.entryFor env creds.Get.1 := by
  by_cases hr : m.ReachesCache env
  · obtain ⟨m', mfaCode, _, _, hkeyeq, hpi, hef, h⟩ :=
      Credentials_reaches sys env provider m fs hr
    rw [h] at hw
    have fin : ∀ (fs0 : FileSystem) (cacheRead : Bool) (v : cache.Value),
        (m'.resolve sys env provider fs0 cacheRead mfaCode (cache.NewStore m'.CacheDir)
          m'.cacheKey v).written = some (key, entry) →
        ∃ creds mfaCode, provider (m.providerInput mfaCode) = Except.ok creds ∧
          creds.Get.2 = none ∧ key = m.cacheKey ∧ entry = m.entryFor env creds.Get.1 := by
      intro fs0 cacheRead v hwr
      obtain ⟨creds, hp, hg, hk, he⟩ :=
        resolve_written sys env provider m' fs0 cacheRead mfaCode v key entry hwr
      exact ⟨creds, mfaCode, by rw [← hpi]; exact hp, hg, by rw [← hkeyeq]; exact hk,
        by rw [← hef]; exact he⟩
    cases hskip : m'.CacheSkip with
    | true =>
      rw [lookup_skip sys env provider m' fs mfaCode hskip] at hw
      exact fin _ _ _ hw
    | false =>
      rcases hx : ((cache.NewStore m'.CacheDir).Read sys fs env.readNow m'.cacheKey).2 with
        ⟨v, _ | readErr⟩
      · rw [lookup_read_ok sys env provider m' fs mfaCode hskip v hx] at hw
        exact fin _ _ _ hw
      · rw [lookup_read_err sys env provider m' fs mfaCode hskip readErr (by rw [hx])] at hw
        simp at hw
  · rw [(Credentials_stops sys env provider m fs hr).2.2.1] at hw
    exact absurd hw (by simp)

/-! ### `--cache-skip` -/

/-- C17 (counterexample): with `--cache-skip`, no cache directory given and a
home directory that cannot be detected, `Credentials` returns an error without
calling the provider; and an unexpired entry without an access key id, as the
first call would write it for such credentials, makes a following call without
`--cache-skip` call the provider again. -/
theorem C17_counterexample :
    skipHomeMixin.CacheSkip = true ∧
      (skipHomeMixin.Credentials sampleSys homelessEnv sampleProvider emptyFS).providerInput =
        none ∧
      (skipHomeMixin.Credentials sampleSys homelessEnv sampleProvider emptyFS).err ≠ none ∧
      sampleMixin.CacheSkip = false ∧
      (sampleStore.Read sampleSys keylessFS sampleEnv.readNow sampleKey).2 =
        (keylessEntry, none) ∧
      (sampleMixin.Credentials sampleSys sampleEnv sampleProvider keylessFS).providerInput ≠
        none := by
  decide

/-- C17 (amended): a `Credentials` call with `CacheSkip` set never reads the
cache; once it is past the detection of the home directory and the MFA prompt it
always calls `provider.Get`; and when it succeeds it has written the entry to the
cache file of the key.  A following call on the resulting file system with
`CacheSkip` unset, the same `MfaSerial`, `RoleChain` and cache directory, which
gets as far as the cache, returns the triple of that entry without calling
`provider.Get`, provided the entry has an access key id, the decoder returns the
entry that was encoded, and the call is made before the entry expires (with
`Expires - now` in the range of `int64`). -/
theorem C17_cache_skip_writes_and_next_call_hits (sys : Sys) (env1 env2 : auth.Env)
    (p1 p2 : auth.Provider) (m1 m2 : auth.Mixin) (fs : FileSystem) (r1 r2 : auth.Outcome)
    (hr1 : r1 = m1.Credentials sys env1 p1 fs)
    (hr2 : r2 = m2.Credentials sys env2 p2 r1.fs)
    (hskip1 : m1.CacheSkip = true) :
    r1.cacheRead = false ∧
    (m1.ReachesCache env1 → r1.providerInput ≠ none) ∧
    (r1.creds ≠ none →
      ∃ entry, r1.written = some (m1.cacheKey, entry) ∧
        r1.fs.files ((cache.NewStore (m1.resolvedCacheDir sys env1)).filename sys m1.cacheKey) =
          some (Node.file (sys.jsonMarshal entry).1) ∧
        (m2.CacheSkip = false → m2.MfaSerial = m1.MfaSerial → m2.RoleChain = m1.RoleChain →
          m2.resolvedCacheDir sys env2 = m1.resolvedCacheDir sys env1 →
          m2.ReachesCache env2 →
          sys.jsonUnmarshal (sys.jsonMarshal entry).1 = (entry, none) →
          entry.AccessKeyID ≠ "" →
          env2.readNow < entry.Expires → isInt64 (entry.Expires - env2.readNow) →
          r2.creds = some (CredentialsObject.static entry.AccessKeyID entry.SecretAccessKey
            entry.SessionToken) ∧
          r2.err = none ∧ r2.cacheRead = true ∧ r2.providerInput = none)) := by
  by_cases hreach : m1.ReachesCache env1
  · obtain ⟨m', mfaCode, hdir, hsk, hkeyeq, _, _, h⟩ :=
      Credentials_reaches sys env1 p1 m1 fs hreach
    have h1 : r1 = m'.resolve sys env1 p1 fs false mfaCode (cache.NewStore m'.CacheDir)
        m'.cacheKey {} := by
      rw [hr1, h, lookup_skip sys env1 p1 m' fs mfaCode (hsk.trans hskip1)]
    rcases resolve_miss sys env1 p1 m' fs false mfaCode (cache.NewStore m'.CacheDir)
        m'.cacheKey {} rfl with
      ⟨e, _, hres⟩ | ⟨c, e, _, _, hres⟩ | ⟨c, e, _, _, _, hres⟩ | ⟨c, _, _, hw, hres⟩
    · rw [hres] at h1
      exact ⟨by rw [h1], fun _ => by rw [h1]; simp, fun hc => by rw [h1] at hc; simp at hc⟩
    · rw [hres] at h1
      exact ⟨by rw [h1], fun _ => by rw [h1]; simp, fun hc => by rw [h1] at hc; simp at hc⟩
    · rw [hres] at h1
      exact ⟨by rw [h1], fun _ => by rw [h1]; simp, fun hc => by rw [h1] at hc; simp at hc⟩
    · rw [hres] at h1
      refine ⟨by rw [h1], fun _ => by rw [h1]; simp, fun _ => ?_⟩
      have hfs : r1.fs = ((cache.NewStore m'.CacheDir).Write sys fs m'.cacheKey
          (m'.entryFor env1 c.Get.1)).1 := by rw [h1]
      refine ⟨m'.entryFor env1 c.Get.1, by rw [h1, hkeyeq], ?_, ?_⟩
      · rcases Write_cases sys fs (cache.NewStore m'.CacheDir) m'.cacheKey
            (m'.entryFor env1 c.Get.1) with ⟨hne, _⟩ | ⟨_, _, _, _, hfiles⟩
        · exact absurd hw hne
        · rw [hfs, hfiles, ← hdir, ← hkeyeq]; simp
      · intro hskip2 hserial hchain hsamedir hreach2 hcodec hkey hbefore hrange
        obtain ⟨m2', code2, hdir2, hsk2, hkeyeq2, _, _, h2⟩ :=
          Credentials_reaches sys env2 p2 m2 r1.fs hreach2
        have hk12 : m2'.cacheKey = m'.cacheKey := by
          rw [hkeyeq2, hkeyeq]
          unfold auth.Mixin.cacheKey
          rw [hserial, hchain]
        have hd12 : m2'.CacheDir = m'.CacheDir := by rw [hdir2, hdir, hsamedir]
        have hread : ((cache.NewStore m2'.CacheDir).Read sys r1.fs env2.readNow
            m2'.cacheKey).2 = (m'.entryFor env1 c.Get.1, none) := by
          rw [hk12, hd12, hfs,
            Read_after_Write sys fs env2.readNow _ _ _ hw hcodec,
            if_pos ((expiry_check_of_isInt64 _ _ hrange).2 hbefore)]
        rw [hr2, h2, lookup_read_ok sys env2 p2 m2' r1.fs code2 (hsk2.trans hskip2) _ hread,
          resolve_hit sys env2 p2 m2' _ true code2 _ _ _ hkey]
        exact ⟨rfl, rfl, rfl, rfl⟩
  · obtain ⟨h1, h2, _, h4, _⟩ := Credentials_stops sys env1 p1 m1 fs hreach
    rw [← hr1] at h1 h2 h4
    exact ⟨h1, fun hr => absurd hr hreach, fun hc => absurd h4 hc⟩

/-- C17 (witness): the sample mixin with `--cache-skip` on the empty file system
at Unix time 1700000000, then the sample mixin without it 100 seconds later. -/
theorem C17_cache_skip_writes_and_next_call_hits_witness :
    skipOutcome.cacheRead = false ∧
      skipOutcome.providerInput ≠ none ∧
      skipOutcome.written = some (sampleKey, freshEntry) ∧
      laterEnv.readNow < freshEntry.Expires ∧
      (sampleMixin.Credentials sampleSys laterEnv failingProvider skipOutcome.fs).creds =
        some (CredentialsObject.static "ASIAFRESH" "freshsecret" "freshtoken") ∧
      (sampleMixin.Credentials sampleSys laterEnv failingProvider skipOutcome.fs).providerInput =
        none := by
  obtain ⟨h1, h2, h3⟩ :=
    C17_cache_skip_writes_and_next_call_hits sampleSys sampleEnv laterEnv sampleProvider
      failingProvider skipMixin sampleMixin emptyFS skipOutcome
      (sampleMixin.Credentials sampleSys laterEnv failingProvider skipOutcome.fs) rfl rfl rfl
  obtain ⟨entry, hw, _, hnext⟩ := h3 (by decide)
  have hwritten : skipOutcome.written = some (sampleKey, freshEntry) := by decide
  have hentry : entry = freshEntry := by
    rw [hwritten] at hw
    simp only [Option.some.injEq, Prod.mk.injEq] at hw
    exact hw.2.symm
  subst hentry
  obtain ⟨hc, _, _, hp⟩ :=
    hnext rfl rfl rfl rfl (by decide) (by decide) (by decide) (by decide) (by decide)
  exact ⟨h1, h2 (by decide), hwritten, by decide, hc, hp⟩

/-! ## The role provider -/

theorem splitOnChar_ne_nil (sep : Char) (cs : List Char) : splitOnChar sep cs ≠ [] := by
  induction cs with
  | nil => simp [splitOnChar]
  | cons c cs ih =>
    unfold splitOnChar
    by_cases h : c = sep
    · simp [h]
    · simp only [h, if_false]
      cases hs : splitOnChar sep cs with
      | nil => simp
      | cons piece pieces => simp

/-- Joining the pieces with the separator gives the characters back. -/
theorem splitOnChar_intercalate (sep : Char) (cs : List Char) :
    List.intercalate [sep] (splitOnChar sep cs) = cs := by
  induction cs with
  | nil => simp [splitOnChar, List.intercalate]
  | cons c cs ih =>
    unfold splitOnChar
    by_cases h : c = sep
    · simp only [h, if_true]
      cases hs : splitOnChar sep cs with
      | nil => exact absurd hs (splitOnChar_ne_nil sep cs)
      | cons piece pieces =>
        rw [hs] at ih
        simp only [List.intercalate, List.intersperse, List.flatten] at ih ⊢
        simp [ih]
    · simp only [h, if_false]
      cases hs : splitOnChar sep cs with
      | nil => exact absurd hs (splitOnChar_ne_nil sep cs)
      | cons piece pieces =>
        rw [hs] at ih
        simp only [List.intercalate] at ih ⊢
        cases pieces with
        | nil => simp [List.intersperse, List.flatten] at ih ⊢; exact ih
        | cons q qs => simp [List.intersperse, List.flatten] at ih ⊢; exact ih

/-- No piece contains the separator. -/
theorem splitOnChar_no_sep (sep : Char) (cs : List Char) :
    ∀ piece ∈ splitOnChar sep cs, sep ∉ piece := by
  induction cs with
  | nil => simp [splitOnChar]
  | cons c cs ih =>
    unfold splitOnChar
    by_cases h : c = sep
    · simp only [h, if_true, List.mem_cons]
      rintro piece (rfl | hp)
      · simp
      · exact ih piece hp
    · simp only [h, if_false]
      cases hs : splitOnChar sep cs with
      | nil => exact absurd hs (splitOnChar_ne_nil sep cs)
      | cons q qs =>
        rw [hs] at ih
        simp only [List.mem_cons]
        rintro piece (rfl | hp)
        · have := ih q (List.mem_cons_self _ _)
          simp only [List.mem_cons, not_or]
          exact ⟨fun e => h e.symm, this⟩
        · exact ih piece (List.mem_cons_of_mem _ hp)

theorem dropWhile_head (p : Char → Bool) (l : List Char) (c : Char)
    (h : (l.dropWhile p).head? = some c) : p c = false := by
  induction l with
  | nil => simp at h
  | cons x l ih =>
    by_cases hx : p x = true
    · rw [List.dropWhile_cons_of_pos hx] at h; exact ih h
    · rw [List.dropWhile_cons_of_neg hx] at h
      simp only [List.head?_cons, Option.some.injEq] at h
      subst h
      simpa using hx

/-- The result of trimming neither starts nor ends with white space. -/
theorem trimSpaceChars_ends (cs : List Char) (c : Char) :
    ((trimSpaceChars cs).head? = some c → unicodeIsSpace c = false) ∧
    ((trimSpaceChars cs).getLast? = some c → unicodeIsSpace c = false) := by
  unfold trimSpaceChars
  constructor
  · intro h
    have hsplit := List.takeWhile_append_dropWhile unicodeIsSpace
      (cs.dropWhile unicodeIsSpace).reverse
    have hx : cs.dropWhile unicodeIsSpace =
        ((cs.dropWhile unicodeIsSpace).reverse.dropWhile unicodeIsSpace).reverse ++
          ((cs.dropWhile unicodeIsSpace).reverse.takeWhile unicodeIsSpace).reverse := by
      have := congrArg List.reverse hsplit
      rw [List.reverse_append, List.reverse_reverse] at this
      exact this.symm
    apply dropWhile_head unicodeIsSpace cs c
    rw [hx, List.head?_append, h]
    rfl
  · intro h
    rw [List.getLast?_reverse] at h
    exact dropWhile_head unicodeIsSpace _ c h

theorem parseLoop_eq (pieces acc : List String) :
    role.parseLoop pieces acc =
      acc ++ (pieces.map stringsTrimSpace).filter (fun piece => piece ≠ "") := by
  induction pieces generalizing acc with
  | nil => simp [role.parseLoop]
  | cons piece pieces ih =>
    unfold role.parseLoop
    by_cases h : stringsTrimSpace piece = ""
    · simp [h, ih]
    · simp [h, ih]

/-- The loop of `Get` computes the role chain as the specification words it. -/
theorem parsedRoleChain_eq (roleChain : String) :
    role.parsedRoleChain roleChain = role.trimmedPieces roleChain := by
  unfold role.parsedRoleChain role.trimmedPieces
  rw [parseLoop_eq]
  simp

/-- What trimming removes is white space in front and white space behind. -/
theorem trimSpaceChars_decomp (cs : List Char) :
    ∃ pre post, cs = pre ++ trimSpaceChars cs ++ post ∧
      (∀ c ∈ pre, unicodeIsSpace c = true) ∧ (∀ c ∈ post, unicodeIsSpace c = true) := by
  refine ⟨cs.takeWhile unicodeIsSpace,
    ((cs.dropWhile unicodeIsSpace).reverse.takeWhile unicodeIsSpace).reverse, ?_, ?_, ?_⟩
  · have hsplit := List.takeWhile_append_dropWhile unicodeIsSpace
      (cs.dropWhile unicodeIsSpace).reverse
    have hx : cs.dropWhile unicodeIsSpace =
        ((cs.dropWhile unicodeIsSpace).reverse.dropWhile unicodeIsSpace).reverse ++
          ((cs.dropWhile unicodeIsSpace).reverse.takeWhile unicodeIsSpace).reverse := by
      have := congrArg List.reverse hsplit
      rw [List.reverse_append, List.reverse_reverse] at this
      exact this.symm
    unfold trimSpaceChars
    rw [List.append_assoc, ← hx, List.takeWhile_append_dropWhile]
  · intro c hc
    exact List.mem_takeWhile_imp hc
  · intro c hc
    exact List.mem_takeWhile_imp (List.mem_reverse.1 hc)

/-- The pieces of a split, joined with the separator, are the string again. -/
theorem stringsSplit_intercalate (s : String) (sep : Char) :
    List.intercalate [sep] ((stringsSplit s sep).map String.data) = s.data := by
  unfold stringsSplit
  rw [List.map_map]
  have : (String.data ∘ String.mk) = id := rfl
  rw [this, List.map_id, splitOnChar_intercalate]

theorem stringsSplit_no_sep (s : String) (sep : Char) :
    ∀ piece ∈ stringsSplit s sep, sep ∉ piece.data := by
  intro piece hp
  unfold stringsSplit at hp
  obtain ⟨cs, hcs, rfl⟩ := List.mem_map.1 hp
  exact splitOnChar_no_sep sep s.data cs hcs

/-- What `Get` does with a role chain that has a link: it calls `ResolveRoleChain`
on `resolveInput`, and returns the error or the credentials of that call. -/
theorem Get_resolves (w : World) (input : auth.ProviderInput)
    (h : role.parsedRoleChain input.RoleChain ≠ []) :
    (role.Get w input).resolved =
        some (role.resolveInput input, ResolveRoleChain w (role.resolveInput input)) ∧
      ((role.Get w input).err = none ↔
        (ResolveRoleChain w (role.resolveInput input)).err = none) ∧
      ((ResolveRoleChain w (role.resolveInput input)).err = none →
        (role.Get w input).creds =
          some (CredentialsObject.static
            (ResolveRoleChain w (role.resolveInput input)).accessKey
            (ResolveRoleChain w (role.resolveInput input)).secretAccessKey
            (ResolveRoleChain w (role.resolveInput input)).sessionToken)) := by
  have hlen : ¬ (role.parsedRoleChain input.RoleChain).length = 0 :=
    fun hl => h (List.length_eq_zero.1 hl)
  unfold role.Get
  simp only [hlen, if_false]
  cases herr : (ResolveRoleChain w (role.resolveInput input)).err with
  | some e => simp [errorsWrap]
  | none => simp

/-- What `Get` does with a role chain that has no link: it returns the error
`role chain required` and `ResolveRoleChain` is not called. -/
theorem Get_refuses (w : World) (input : auth.ProviderInput)
    (h : role.parsedRoleChain input.RoleChain = []) :
    (role.Get w input).err = some (Error.new "role chain required") ∧
      (role.Get w input).creds = none ∧ (role.Get w input).resolved = none := by
  unfold role.Get
  simp [h]

/-- C20: the chain `Get` hands to `ResolveRoleChain` is exactly the
comma-separated pieces of `RoleChain`, each trimmed of white space, without the
empty ones and in their order; no link of it is empty, starts with white space or
ends with white space; and `Get` returns an error without calling
`ResolveRoleChain` if and only if no non-empty piece remains after trimming.
When a link remains, `Get` does call `ResolveRoleChain`, on an input whose chain
is the parsed one, and the outcome of `Get` is the outcome of that call: its
error, or static credentials made of its triple.  When none remains, the error
is `role chain required`.  The pieces are those of the string: joined with
commas they give it back and none contains a comma; and trimming a piece removes
white space in front of it and behind it, nothing else. -/
theorem C20_role_chain_is_parsed (w : World) (input : auth.ProviderInput) :
    role.parsedRoleChain input.RoleChain =
        ((stringsSplit input.RoleChain ',').map stringsTrimSpace).filter
          (fun piece => piece ≠ "") ∧
    (∀ link ∈ role.parsedRoleChain input.RoleChain, link ≠ "" ∧
      (∀ c, link.data.head? = some c → unicodeIsSpace c = false) ∧
      (∀ c, link.data.getLast? = some c → unicodeIsSpace c = false)) ∧
    (∀ resolveInput result, (role.Get w input).resolved = some (resolveInput, result) →
      resolveInput.Chain = role.parsedRoleChain input.RoleChain ∧
      result = ResolveRoleChain w resolveInput) ∧
    (((role.Get w input).err ≠ none ∧ (role.Get w input).resolved = none) ↔
      role.parsedRoleChain input.RoleChain = []) ∧
    (role.parsedRoleChain input.RoleChain = [] ↔
      ∀ piece ∈ stringsSplit input.RoleChain ',', stringsTrimSpace piece = "") ∧
    (role.parsedRoleChain input.RoleChain ≠ [] →
      (role.Get w input).resolved =
          some (role.resolveInput input, ResolveRoleChain w (role.resolveInput input)) ∧
        (role.resolveInput input).Chain = role.parsedRoleChain input.RoleChain ∧
        ((role.Get w input).err = none ↔
          (ResolveRoleChain w (role.resolveInput input)).err = none) ∧
        ((ResolveRoleChain w (role.resolveInput input)).err = none →
          (role.Get w input).creds =
            some (CredentialsObject.static
              (ResolveRoleChain w (role.resolveInput input)).accessKey
              (ResolveRoleChain w (role.resolveInput input)).secretAccessKey
              (ResolveRoleChain w (role.resolveInput input)).sessionToken))) ∧
    (role.parsedRoleChain input.RoleChain = [] →
      (role.Get w input).err = some (Error.new "role chain required") ∧
        (role.Get w input).creds = none ∧ (role.Get w input).resolved = none) ∧
    List.intercalate [','] ((stringsSplit input.RoleChain ',').map String.data) =
      input.RoleChain.data ∧
    (∀ piece ∈ stringsSplit input.RoleChain ',', ',' ∉ piece.data) ∧
    (∀ piece : String, ∃ pre post,
      piece.data = pre ++ (stringsTrimSpace piece).data ++ post ∧
      (∀ c ∈ pre, unicodeIsSpace c = true) ∧ (∀ c ∈ post, unicodeIsSpace c = true)) := by
  have hparsed := parsedRoleChain_eq input.RoleChain
  unfold role.trimmedPieces at hparsed
  refine ⟨hparsed, ?_, ?_, ?_, ?_, ?_, Get_refuses w input,
    stringsSplit_intercalate input.RoleChain ',', stringsSplit_no_sep input.RoleChain ',',
    fun piece => trimSpaceChars_decomp piece.data⟩
  · intro link hl
    rw [hparsed] at hl
    simp only [List.mem_filter, List.mem_map, decide_eq_true_eq] at hl
    obtain ⟨⟨piece, _, rfl⟩, hne⟩ := hl
    exact ⟨hne, fun c hc => (trimSpaceChars_ends piece.data c).1 hc,
      fun c hc => (trimSpaceChars_ends piece.data c).2 hc⟩
  · intro rin res hres
    unfold role.Get at hres
    by_cases hlen : (role.parsedRoleChain input.RoleChain).length = 0
    · simp [hlen] at hres
    · simp only [hlen, if_false] at hres
      cases herr : (ResolveRoleChain w (role.resolveInput input)).err with
      | some e =>
        simp only [herr, Option.some.injEq, Prod.mk.injEq] at hres
        obtain ⟨rfl, rfl⟩ := hres
        exact ⟨rfl, rfl⟩
      | none =>
        simp only [herr, Option.some.injEq, Prod.mk.injEq] at hres
        obtain ⟨rfl, rfl⟩ := hres
        exact ⟨rfl, rfl⟩
  · unfold role.Get
    by_cases hlen : (role.parsedRoleChain input.RoleChain).length = 0
    · have hnil : role.parsedRoleChain input.RoleChain = [] := List.length_eq_zero.1 hlen
      simp [hlen, hnil]
    · have hnil : role.parsedRoleChain input.RoleChain ≠ [] :=
        fun h => hlen (by rw [h]; rfl)
      simp only [hlen, if_false]
      cases herr : (ResolveRoleChain w (role.resolveInput input)).err with
      | some e => simp [hnil]
      | none => simp [hnil]
  · rw [hparsed]
    simp [List.filter_eq_nil_iff]
  · intro hne
    obtain ⟨h1, h2, h3⟩ := Get_resolves w input hne
    exact ⟨h1, rfl, h2, h3⟩

/-- C20 (witness): the role chain `" instance , arn:aws:iam::123456789012:role/a,, "`
has the two links `instance` and the role, and `Get` hands them to
`ResolveRoleChain`. -/
theorem C20_role_chain_is_parsed_witness :
    role.parsedRoleChain paddedRoleChainInput.RoleChain = [InstanceRoleChainAlias, roleA] ∧
      (role.Get sampleWorld paddedRoleChainInput).resolved =
        some (role.resolveInput paddedRoleChainInput,
          ResolveRoleChain sampleWorld (role.resolveInput paddedRoleChainInput)) ∧
      (role.resolveInput paddedRoleChainInput).Chain = [InstanceRoleChainAlias, roleA] :=
  have hp : role.parsedRoleChain paddedRoleChainInput.RoleChain =
      [InstanceRoleChainAlias, roleA] := by decide
  ⟨hp,
    ((C20_role_chain_is_parsed sampleWorld paddedRoleChainInput).2.2.2.2.2.1
      (by rw [hp]; simp)).1,
    by rw [← hp]; rfl⟩

/-! ## The resolution log -/

/-- C21 (counterexample): for the chain
`["instance", "arn:aws:iam::123456789012:role/backup"]` without static
credentials, with both calls succeeding, the log at the end of the traversal has
three entries: one for the seed and two for the elevation. -/
theorem C21_counterexample :
    backupInput.Chain = ["instance", "arn:aws:iam::123456789012:role/backup"] ∧
      ¬ backupInput.hasStaticCreds ∧
      (ResolveRoleChain sampleWorld backupInput).calls.map Call.err = [none, none] ∧
      (ResolveRoleChain sampleWorld backupInput).err = none ∧
      (ResolveRoleChain sampleWorld backupInput).log =
        ["seeded chain with instance role creds",
         "about to assume role from link [arn:aws:iam::123456789012:role/backup] " ++
           "with prior creds [true]",
         "assumed role from link: arn:aws:iam::123456789012:role/backup"] ∧
      (ResolveRoleChain sampleWorld backupInput).log.length = 3 := by
  decide

/-- C21 (amended): for the chain
`["instance", "arn:aws:iam::123456789012:role/backup"]` without static
credentials, when both the seed call and the elevation call succeed, the log at
the end of the traversal contains exactly three entries: one for the seed step,
one written before the elevation call (with the link and whether prior
credentials existed) and one written after it. -/
theorem C21_log_has_three_entries (w : World) (input : ResolveRoleChainInput)
    (hs : ¬ input.hasStaticCreds)
    (hc : input.Chain = [InstanceRoleChainAlias, roleBackup])
    (hclean : Clean (ResolveRoleChain w input).calls) :
    (ResolveRoleChain w input).err = none ∧
      (ResolveRoleChain w input).log.length = 3 ∧
      (ResolveRoleChain w input).log =
        ["seeded chain with instance role creds",
         "about to assume role from link [" ++ roleBackup ++ "] with prior creds [" ++
           toString (decide ((GetEC2RoleCreds w).1.AccessKeyID ≠ "")) ++ "]",
         "assumed role from link: " ++ roleBackup] := by
  have ha : IsARN roleBackup = true := by decide
  rcases hg : GetEC2RoleCreds w with ⟨creds, _ | err⟩
  · rw [resolve_instance_ok w input [roleBackup] hc hs creds hg] at hclean ⊢
    cases he : (elevationAt w
        { input := input, prior := creds, log := ["seeded chain with instance role creds"],
          calls := [Call.ec2RoleCreds creds none] } roleBackup).err with
    | some err =>
      rw [loop_arn_err w roleBackup [] _ ha err he] at hclean
      have := hclean (Call.assumeRole (elevationAt w
        { input := input, prior := creds, log := ["seeded chain with instance role creds"],
          calls := [Call.ec2RoleCreds creds none] } roleBackup)) (by simp [State.fail])
      rw [Call.err, he] at this
      exact absurd this (by simp)
    | none =>
      rw [loop_arn_ok w roleBackup [] _ ha he, loop_nil]
      simp [State.done, stateAfter, logAbout]
  · rw [resolve_instance_err w input [roleBackup] hc hs creds err hg] at hclean
    have := hclean (Call.ec2RoleCreds creds (some err)) (by simp [State.fail])
    exact absurd this (by simp [Call.err])

/-- C21 (witness): the backup scenario in the sample world. -/
theorem C21_log_has_three_entries_witness :
    ¬ backupInput.hasStaticCreds ∧
      backupInput.Chain = [InstanceRoleChainAlias, roleBackup] ∧
      Clean (ResolveRoleChain sampleWorld backupInput).calls ∧
      ((ResolveRoleChain sampleWorld backupInput).err = none ∧
        (ResolveRoleChain sampleWorld backupInput).log.length = 3 ∧
        (ResolveRoleChain sampleWorld backupInput).log =
          ["seeded chain with instance role creds",
           "about to assume role from link [" ++ roleBackup ++ "] with prior creds [" ++
             toString (decide ((GetEC2RoleCreds sampleWorld).1.AccessKeyID ≠ "")) ++ "]",
           "assumed role from link: " ++ roleBackup]) :=
  ⟨by decide, rfl, by unfold Clean; decide,
    C21_log_has_three_entries sampleWorld backupInput (by decide) rfl
      (by unfold Clean; decide)⟩

/-! ## The random session name -/

/-- When no session name is given, the session is created and the random source
fails, `GetAssumeRoleCreds` makes no `AssumeRole` request and returns the zero
credentials with a nil error: the error it wraps is the named result `err`, which
is nil, not the error of the random source. -/
theorem GetAssumeRoleCreds_rand_failure (w : World) (hist : List Call) (arn : String)
    (input : ResolveRoleChainInput) (config : Config)
    (hname : input.SessionName = "") (hsess : w.newSession hist config = none)
    (hrand : (w.RandHexString hist 2).2 ≠ none) :
    (GetAssumeRoleCreds w hist arn input config).err = none ∧
      (GetAssumeRoleCreds w hist arn input config).creds = {} ∧
      (GetAssumeRoleCreds w hist arn input config).request = none := by
  rcases hr : w.RandHexString hist 2 with ⟨randStr, _ | randStrErr⟩
  · rw [hr] at hrand; exact absurd rfl hrand
  · simp [GetAssumeRoleCreds, hsess, hname, hr, errorsWrap]

/-- C22 (the code at the failing input): no session name is given and the random
source fails.  `GetAssumeRoleCreds` returns a nil error with the zero credentials
and sends no request, and `ResolveRoleChain` on the chain of that one role
reports success with three empty strings. -/
theorem C22_random_failure_is_reported_as_success :
    oneRoleInput.SessionName = "" ∧
      (randFailWorld.RandHexString [] 2).2 ≠ none ∧
      (GetAssumeRoleCreds randFailWorld [] roleA oneRoleInput
        (assumeConfig oneRoleInput {})).err = none ∧
      (GetAssumeRoleCreds randFailWorld [] roleA oneRoleInput
        (assumeConfig oneRoleInput {})).creds = {} ∧
      (GetAssumeRoleCreds randFailWorld [] roleA oneRoleInput
        (assumeConfig oneRoleInput {})).request = none ∧
      (ResolveRoleChain randFailWorld oneRoleInput).err = none ∧
      (ResolveRoleChain randFailWorld oneRoleInput).accessKey = "" ∧
      (ResolveRoleChain randFailWorld oneRoleInput).secretAccessKey = "" ∧
      (ResolveRoleChain randFailWorld oneRoleInput).sessionToken = "" ∧
      (elevations (ResolveRoleChain randFailWorld oneRoleInput).calls).length = 1 := by
  decide

end AwsExecCmd
